import Mathlib

/-!
Verification of the heart-attack risk inference pipeline
(`src/preprocessing/preprocessor.py`, `src/prediction/predictor.py`,
`src/models/model_predictor.py`, `src/utils/config.py`).

The pandas pipeline is shallowly embedded:
* a DataFrame is a row count together with an ordered association list of
  named columns (`DF`); a patient record (Python dict) is an ordered
  association list of named cells;
* a cell value (`Val`) is a string, a number, or NaN/missing; real numbers
  are modelled by exact rationals (binary floating point representation is
  deliberately idealised away, consistently for the whole development);
* after the `astype(float)` step values live in `FVal`, rationals extended
  with a NaN element through which arithmetic propagates, mirroring numpy;
* fallible steps (`LabelEncoder.transform` on unseen labels,
  `astype(float)` on a non-numeric string, a missing `id` column) return
  `Except String`, each failure site with its own distinguishable message;
* the trained model is an opaque row-wise function from a feature row to
  the positive-class probability (`predict_proba(X)[i][1]`).
-/

namespace HealthPred

/-- A cell value as pandas sees it: a Python string, a number
(int and float are identified, embedded as an exact rational), or NaN /
missing. -/
inductive Val where
  | vstr : String → Val
  | vnum : ℚ → Val
  | vna  : Val
deriving DecidableEq, Repr

/-- A numeric cell after `astype(float)`: a rational or NaN. -/
inductive FVal where
  | fl  : ℚ → FVal
  | fnan : FVal
deriving DecidableEq, Repr

namespace FVal

/-- numpy addition: NaN-propagating. -/
def fadd : FVal → FVal → FVal
  | fl a, fl b => fl (a + b)
  | _, _ => fnan

/-- numpy subtraction: NaN-propagating. -/
def fsub : FVal → FVal → FVal
  | fl a, fl b => fl (a - b)
  | _, _ => fnan

/-- numpy multiplication: NaN-propagating. -/
def fmul : FVal → FVal → FVal
  | fl a, fl b => fl (a * b)
  | _, _ => fnan

/-- numpy division by a nonzero constant: NaN-propagating. -/
def fdivC : FVal → ℚ → FVal
  | fl a, c => fl (a / c)
  | fnan, _ => fnan

/-- `np.abs`: NaN-propagating. -/
def fabs : FVal → FVal
  | fl a => fl |a|
  | fnan => fnan

/-- `x ** 2`: NaN-propagating. -/
def fsq : FVal → FVal
  | fl a => fl (a * a)
  | fnan => fnan

/-- numpy scalar-minus-value (`1 - col`, `0.5` offsets, …). -/
def csub (c : ℚ) : FVal → FVal
  | fl a => fl (c - a)
  | fnan => fnan

/-- numpy value-minus-scalar. -/
def subC : FVal → ℚ → FVal
  | fl a, c => fl (a - c)
  | fnan, _ => fnan

end FVal

/-- Round-half-to-even of a rational to an integer, the tie-breaking rule
of both Python `round` and `numpy.round`. -/
def halfEven (q : ℚ) : ℤ :=
  let f : ℤ := ⌊q⌋
  if q - f < 1/2 then f
  else if (1 : ℚ)/2 < q - f then f + 1
  else if 2 ∣ f then f else f + 1

/-- `round(x, 4)` / `ndarray.round(4)`: round half-to-even at the fourth
decimal place. -/
def round4 (q : ℚ) : ℚ := (halfEven (q * 10000) : ℚ) / 10000

/-- `round(x, 4)` lifted to numeric cells (NaN rounds to NaN). -/
def roundF4 : FVal → FVal
  | FVal.fl q => FVal.fl (round4 q)
  | FVal.fnan => FVal.fnan

/-- Error-propagating map over a list, the effect of a pandas column-wise
fallible operation: the whole operation fails as soon as one element
fails. -/
def mapE (f : α → Except String β) : List α → Except String (List β)
  | [] => Except.ok []
  | x :: xs => do
      let y ← f x
      let ys ← mapE f xs
      return y :: ys

/-- A pandas DataFrame: a row count and an ordered association list of
named columns. -/
structure DF where
  n : ℕ
  cols : List (String × List Val)
deriving DecidableEq, Repr

/-- A DataFrame is well-formed when every column has exactly `n` cells. -/
def DF.WF (df : DF) : Prop := ∀ c ∈ df.cols, (c.2).length = df.n

/-- A patient record (a Python dict, insertion-ordered). -/
abbrev Record := List (String × Val)

/-- A numeric DataFrame, the result of `astype(float)`: named columns of
`FVal` cells. -/
abbrev NDF := List (String × List FVal)

/-- `pd.DataFrame([data])` — the one-row DataFrame built from a dict
(`preprocess_single`, preprocessor.py line 126). -/
def singleDF (data : Record) : DF :=
  ⟨1, data.map (fun kv => (kv.1, [kv.2]))⟩

/-- First column of the given name (pandas column lookup), polymorphic in
the cell type. -/
def lookupCol (name : String) : List (String × α) → Option α
  | [] => none
  | c :: cs => if c.1 = name then some c.2 else lookupCol name cs

/-! ## Configuration (`src/utils/config.py`) -/

/-- `Config.COLUMNS_TO_DROP` (config.py line 40). -/
def COLUMNS_TO_DROP : List String := ["Unnamed: 0", "id"]

/-- `Config.DEFAULT_THRESHOLD = 0.40` (config.py line 30). -/
def DEFAULT_THRESHOLD : ℚ := 2/5

/-! ## Preprocessor (`src/preprocessing/preprocessor.py`) -/

/-- `DataPreprocessor.BASE_FEATURES` (preprocessor.py lines 24-32). -/
def BASE_FEATURES : List String :=
  ["Age", "Cholesterol", "Heart rate", "Diabetes", "Family History",
   "Smoking", "Obesity", "Alcohol Consumption", "Exercise Hours Per Week",
   "Diet", "Previous Heart Problems", "Medication Use", "Stress Level",
   "Sedentary Hours Per Day", "Income", "BMI", "Triglycerides",
   "Physical Activity Days Per Week", "Sleep Hours Per Day", "Blood sugar",
   "CK-MB", "Troponin", "Gender", "Systolic blood pressure",
   "Diastolic blood pressure"]

/-- `DataPreprocessor.DEFAULT_FILL_VALUES` (preprocessor.py lines 35-45),
insertion-ordered as in the source dict. -/
def DEFAULT_FILL_VALUES : List (String × ℚ) :=
  [("Diabetes", 1), ("Family History", 0), ("Smoking", 1), ("Obesity", 0),
   ("Alcohol Consumption", 1), ("Previous Heart Problems", 1),
   ("Medication Use", 0), ("Stress Level", 5),
   ("Physical Activity Days Per Week", 3)]

/-- The `ValueError` message `sklearn.preprocessing.LabelEncoder` raises
on a label outside the fitted classes. -/
def ENC_ERR : String := "ValueError: y contains previously unseen labels"

/-- The `replace` dict of preprocessor.py lines 150-155 applied to one
Gender cell: the string and numeric spellings of 0 and 1 become the labels
"Female" / "Male" (Python `0 == 0.0`, so `0`, `0.0` and `False`-free
numeric zero are one key); anything else is untouched. -/
def genderReplace (v : Val) : Val :=
  match v with
  | Val.vstr s =>
      if s = "0.0" ∨ s = "0" then Val.vstr "Female"
      else if s = "1.0" ∨ s = "1" then Val.vstr "Male"
      else Val.vstr s
  | Val.vnum q =>
      if q = 0 then Val.vstr "Female"
      else if q = 1 then Val.vstr "Male"
      else Val.vnum q
  | Val.vna => Val.vna

/-- Lines 150-158 on one Gender cell: `replace`, then
`.map({'Female': 0, 'Male': 1}).fillna(·)` — an unmapped value is restored
unchanged by the `fillna`. -/
def genderStep1 (v : Val) : Val :=
  let w := genderReplace v
  if w = Val.vstr "Female" then Val.vnum 0
  else if w = Val.vstr "Male" then Val.vnum 1
  else w

/-- `self.label_encoder.transform` on one cell: the encoder was fitted on
`['Female', 'Male']` (preprocessor.py line 50) and raises `ValueError` on
any previously unseen label. -/
def labelEnc (v : Val) : Except String Val :=
  if v = Val.vstr "Female" then Except.ok (Val.vnum 0)
  else if v = Val.vstr "Male" then Except.ok (Val.vnum 1)
  else Except.error ENC_ERR

/-- Is the cell a Python string?  A pandas column has dtype `object`
exactly when it still holds such a non-numeric value. -/
def Val.isStr : Val → Bool
  | Val.vstr _ => true
  | _ => false

/-- Lines 149-162 on the whole Gender column: element-wise
replace/map/fillna, then — only when the column dtype is still `object`,
i.e. some string survived — the fitted LabelEncoder over the whole
column. -/
def procGenderCol (col : List Val) : Except String (List Val) :=
  let col1 := col.map genderStep1
  if col1.any Val.isStr then mapE labelEnc col1 else Except.ok col1

/-- `fillna(value)` on one cell (preprocessor.py line 167). -/
def fillNa (value : ℚ) : Val → Val
  | Val.vna => Val.vnum value
  | v => v

/-- Parse the decimal strings Python `float()` accepts in this pipeline
(optional sign, digits, optional fractional part).  Only reached by
`astype(float)` on string cells. -/
def parseDec? (s : String) : Option ℚ :=
  let core (t : List Char) : Option ℚ :=
    let intPart := t.takeWhile Char.isDigit
    let rest := t.drop intPart.length
    let fracPart :=
      match rest with
      | '.' :: fs => if fs.all Char.isDigit then some fs else none
      | [] => some []
      | _ => none
    match fracPart with
    | none => none
    | some fs =>
        if intPart = [] ∧ fs = [] then none
        else
          let iv : ℕ := intPart.foldl (fun a c => a * 10 + c.toNat - 48) 0
          let fv : ℕ := fs.foldl (fun a c => a * 10 + c.toNat - 48) 0
          some ((iv : ℚ) + (fv : ℚ) / (10 ^ fs.length : ℕ))
  match s.toList with
  | '-' :: t => (core t).map Neg.neg
  | '+' :: t => core t
  | t => core t

/-- `astype(float)` on one cell (preprocessor.py line 179): numbers cast
exactly, NaN stays NaN, strings go through `float()` and raise
`ValueError` when unparsable. -/
def astypeF : Val → Except String FVal
  | Val.vnum q => Except.ok (FVal.fl q)
  | Val.vna => Except.ok FVal.fnan
  | Val.vstr s =>
      match parseDec? s with
      | some q => Except.ok (FVal.fl q)
      | none => Except.error ("ValueError: could not convert string to float: " ++ s)

/-- Column of the given name; `df[name]` raises `KeyError` when absent,
which `_create_features` never hits because `transform` projects to
exactly the `BASE_FEATURES` first, so the default is unreachable there. -/
def colOf (df : NDF) (name : String) : List FVal :=
  (lookupCol name df).getD []

/-- Column assignment `df[name] = col`: replace the column in place when
the name exists, append it at the end otherwise (pandas semantics). -/
def setCol : NDF → String → List FVal → NDF
  | [], name, col => [(name, col)]
  | c :: cs, name, col =>
      if c.1 = name then (name, col) :: cs else c :: setCol cs name col

/-! The 18 engineered-column formulas of `_create_features`
(preprocessor.py lines 61-114), one definition per source expression,
each reading the frame `d` as built so far. -/

/-- Line 69: `Smoking + Obesity + Alcohol Consumption + (1 - Physical
Activity Days Per Week / 7)`. -/
def lifestyleCol (d : NDF) : List FVal :=
  List.zipWith FVal.fadd
    (List.zipWith FVal.fadd
      (List.zipWith FVal.fadd (colOf d "Smoking") (colOf d "Obesity"))
      (colOf d "Alcohol Consumption"))
    ((colOf d "Physical Activity Days Per Week").map
      (fun v => FVal.csub 1 (FVal.fdivC v 7)))

/-- Line 76: `Diabetes + Family History + Previous Heart Problems`. -/
def medicalCol (d : NDF) : List FVal :=
  List.zipWith FVal.fadd
    (List.zipWith FVal.fadd (colOf d "Diabetes") (colOf d "Family History"))
    (colOf d "Previous Heart Problems")

/-- Line 82: `Lifestyle_Risk + Medical_Risk` (reads the two columns just
created). -/
def totalCol (d : NDF) : List FVal :=
  List.zipWith FVal.fadd (colOf d "Lifestyle_Risk") (colOf d "Medical_Risk")

/-- Line 85: `Age * BMI`. -/
def ageBmiCol (d : NDF) : List FVal :=
  List.zipWith FVal.fmul (colOf d "Age") (colOf d "BMI")

/-- Line 86: `Age * Cholesterol`. -/
def ageCholCol (d : NDF) : List FVal :=
  List.zipWith FVal.fmul (colOf d "Age") (colOf d "Cholesterol")

/-- Line 87: `Cholesterol + Triglycerides`. -/
def lipidCol (d : NDF) : List FVal :=
  List.zipWith FVal.fadd (colOf d "Cholesterol") (colOf d "Triglycerides")

/-- Line 90: `Systolic blood pressure - Diastolic blood pressure`. -/
def pulseCol (d : NDF) : List FVal :=
  List.zipWith FVal.fsub (colOf d "Systolic blood pressure")
    (colOf d "Diastolic blood pressure")

/-- Lines 91-94: `Diastolic + (Systolic - Diastolic) / 3`. -/
def meanArtCol (d : NDF) : List FVal :=
  List.zipWith FVal.fadd (colOf d "Diastolic blood pressure")
    ((List.zipWith FVal.fsub (colOf d "Systolic blood pressure")
        (colOf d "Diastolic blood pressure")).map (fun v => FVal.fdivC v 3))

/-- Line 97: `CK-MB + Troponin`. -/
def cardiacCol (d : NDF) : List FVal :=
  List.zipWith FVal.fadd (colOf d "CK-MB") (colOf d "Troponin")

/-- Line 100: `Exercise Hours Per Week - Sedentary Hours Per Day`. -/
def activityCol (d : NDF) : List FVal :=
  List.zipWith FVal.fsub (colOf d "Exercise Hours Per Week")
    (colOf d "Sedentary Hours Per Day")

/-- Line 101: `1 - np.abs(Sleep Hours Per Day - 0.5) * 2`. -/
def sleepCol (d : NDF) : List FVal :=
  (colOf d "Sleep Hours Per Day").map
    (fun v => FVal.csub 1 (FVal.fmul (FVal.fabs (FVal.subC v (1/2))) (FVal.fl 2)))

/-- Line 104: `Age ** 2`. -/
def ageSqCol (d : NDF) : List FVal := (colOf d "Age").map FVal.fsq

/-- Line 105: `BMI ** 2`. -/
def bmiSqCol (d : NDF) : List FVal := (colOf d "BMI").map FVal.fsq

/-- Line 106: `Cholesterol ** 2`. -/
def cholSqCol (d : NDF) : List FVal := (colOf d "Cholesterol").map FVal.fsq

/-- Line 109: `Smoking * Diabetes`. -/
def smokeDiabCol (d : NDF) : List FVal :=
  List.zipWith FVal.fmul (colOf d "Smoking") (colOf d "Diabetes")

/-- Line 110: `Smoking * Family History`. -/
def smokeFamCol (d : NDF) : List FVal :=
  List.zipWith FVal.fmul (colOf d "Smoking") (colOf d "Family History")

/-- Line 111: `Obesity * Diabetes`. -/
def obesDiabCol (d : NDF) : List FVal :=
  List.zipWith FVal.fmul (colOf d "Obesity") (colOf d "Diabetes")

/-- Line 112: `Stress Level * Sedentary Hours Per Day`. -/
def stressSedCol (d : NDF) : List FVal :=
  List.zipWith FVal.fmul (colOf d "Stress Level")
    (colOf d "Sedentary Hours Per Day")

/-- One `df[name] = expr` line each, in source order. -/
def cf01 (d : NDF) : NDF := setCol d "Lifestyle_Risk" (lifestyleCol d)

def cf02 (d : NDF) : NDF := setCol d "Medical_Risk" (medicalCol d)

def cf03 (d : NDF) : NDF := setCol d "Total_Risk_Score" (totalCol d)

def cf04 (d : NDF) : NDF := setCol d "Age_BMI" (ageBmiCol d)

def cf05 (d : NDF) : NDF := setCol d "Age_Cholesterol" (ageCholCol d)

def cf06 (d : NDF) : NDF := setCol d "Lipid_Total" (lipidCol d)

def cf07 (d : NDF) : NDF := setCol d "Pulse_Pressure" (pulseCol d)

def cf08 (d : NDF) : NDF := setCol d "Mean_Arterial_Pressure" (meanArtCol d)

def cf09 (d : NDF) : NDF := setCol d "Cardiac_Biomarkers" (cardiacCol d)

def cf10 (d : NDF) : NDF := setCol d "Activity_Balance" (activityCol d)

def cf11 (d : NDF) : NDF := setCol d "Sleep_Quality" (sleepCol d)

def cf12 (d : NDF) : NDF := setCol d "Age_squared" (ageSqCol d)

def cf13 (d : NDF) : NDF := setCol d "BMI_squared" (bmiSqCol d)

def cf14 (d : NDF) : NDF := setCol d "Cholesterol_squared" (cholSqCol d)

def cf15 (d : NDF) : NDF := setCol d "Smoking_Diabetes" (smokeDiabCol d)

def cf16 (d : NDF) : NDF := setCol d "Smoking_FamilyHistory" (smokeFamCol d)

def cf17 (d : NDF) : NDF := setCol d "Obesity_Diabetes" (obesDiabCol d)

def cf18 (d : NDF) : NDF := setCol d "Stress_Sedentary" (stressSedCol d)

/-- `DataPreprocessor._create_features` (preprocessor.py lines 61-114):
the eighteen column assignments in source order (`df.copy()` at line 66 is
identity on the immutable embedding). -/
def createFeatures (df : NDF) : NDF :=
  cf18 (cf17 (cf16 (cf15 (cf14 (cf13 (cf12 (cf11 (cf10 (cf09 (cf08 (cf07
    (cf06 (cf05 (cf04 (cf03 (cf02 (cf01 df)))))))))))))))))

/-- The names of the engineered columns, in the order `_create_features`
assigns them. -/
def ENGINEERED_FEATURES : List String :=
  ["Lifestyle_Risk", "Medical_Risk", "Total_Risk_Score", "Age_BMI",
   "Age_Cholesterol", "Lipid_Total", "Pulse_Pressure",
   "Mean_Arterial_Pressure", "Cardiac_Biomarkers", "Activity_Balance",
   "Sleep_Quality", "Age_squared", "BMI_squared", "Cholesterol_squared",
   "Smoking_Diabetes", "Smoking_FamilyHistory", "Obesity_Diabetes",
   "Stress_Sedentary"]

/-- Step 1 (preprocessor.py lines 143-146): drop `Config.COLUMNS_TO_DROP`
when present — absence is not an error. -/
def dropStep (df : DF) : List (String × List Val) :=
  df.cols.filter (fun c => !(COLUMNS_TO_DROP.contains c.1))

/-- Step 2 on one column (lines 148-162): only a column named `Gender` is
normalized; every other column passes through. -/
def genderColStep (c : String × List Val) : Except String (String × List Val) :=
  if c.1 = "Gender" then (procGenderCol c.2).map (fun col => (c.1, col))
  else Except.ok c

/-- Step 3 (lines 164-167): `fillna` each configured fill column (when
present) with its stored default, in dict order. -/
def fillStep (fills : List (String × ℚ)) (d : List (String × List Val)) :
    List (String × List Val) :=
  fills.foldl (fun dc cv =>
    dc.map (fun c => if c.1 = cv.1 then (c.1, c.2.map (fillNa cv.2)) else c)) d

/-- Step 4 (lines 169-173): append every absent canonical base column as a
constant-0 column of the frame's row count. -/
def completeStep (n : ℕ) (d : List (String × List Val)) :
    List (String × List Val) :=
  d ++ (BASE_FEATURES.filter (fun b => (lookupCol b d).isNone)).map
    (fun b => (b, List.replicate n (Val.vnum 0)))

/-- Step 5 (lines 175-176): project to exactly the canonical base columns
in canonical order (every lookup succeeds after step 4). -/
def selectStep (d : List (String × List Val)) : List (String × List Val) :=
  BASE_FEATURES.filterMap (fun b => (lookupCol b d).map (fun col => (b, col)))

/-- Step 6 on one column (line 179): `astype(float)` cell by cell. -/
def astypeCol (c : String × List Val) : Except String (String × List FVal) :=
  (mapE astypeF c.2).map (fun col => (c.1, col))

/-- `DataPreprocessor.transform` (preprocessor.py lines 129-185), the six
normalization steps followed by feature engineering (step 7,
`_create_features`). -/
def transform (fills : List (String × ℚ)) (df : DF) : Except String NDF := do
  let d2 ← mapE genderColStep (dropStep df)
  let d6 ← mapE astypeCol (selectStep (completeStep df.n (fillStep fills d2)))
  return createFeatures d6

/-- `DataPreprocessor.preprocess_single` (preprocessor.py lines 116-127):
wrap the dict in a one-row DataFrame and run `transform`. -/
def preprocessSingle (fills : List (String × ℚ)) (data : Record) :
    Except String NDF :=
  transform fills (singleDF data)

/-! ## Preprocessor construction (`DataPreprocessor.__init__`, lines 47-59) -/

/-- What the filesystem offers for `Config.FILL_VALUES_PATH`:
`fillExists` is `path.exists()`; when it exists, `fillArtifact = some m`
means `joblib.load` returns the map `m`, and `none` means the load raises
(corrupt artifact). -/
structure PreEnv where
  fillExists : Bool
  fillArtifact : Option (List (String × ℚ))

/-- The state a `DataPreprocessor` instance owns after `__init__`: its
fill-value map.  (The label encoder fitted on `['Female', 'Male']` at line
50 is the fixed function `labelEnc`.) -/
structure PreState where
  fill_values : List (String × ℚ)
deriving DecidableEq, Repr

/-- `DataPreprocessor.__init__` (lines 47-59): start from a copy of
`DEFAULT_FILL_VALUES`; inside `try`, load the persisted map if the file
exists; any exception is caught, leaving the default in place.  Total — a
load failure never escapes. -/
def initPreprocessor (env : PreEnv) : PreState :=
  { fill_values :=
      if env.fillExists then
        match env.fillArtifact with
        | some m => m
        | none => DEFAULT_FILL_VALUES
      else DEFAULT_FILL_VALUES }

/-- The `transform` method with the instance state threaded explicitly:
the method reads `self.fill_values` and assigns no attribute, so the
returned state is the input state. -/
def transformS (s : PreState) (df : DF) : Except String (PreState × NDF) :=
  (transform s.fill_values df).map (fun out => (s, out))

/-! ## Predictor (`src/prediction/predictor.py`) -/

/-- `round(x, 1)`, for the `f"{p * 100:.1f}%"` risk percentage (the `%`
string rendering is elided; the field carries the rounded number). -/
def round1 (q : ℚ) : ℚ := (halfEven (q * 10) : ℚ) / 10

/-- The opaque trained model artifact: `fn` is
`predict_proba(row)[1]`, the positive-class probability for one feature
row; the remaining fields are what `get_model_info` introspects. -/
structure Model where
  fn : List FVal → ℚ
  typeName : String
  hasGetParams : Bool
  nEstimators : Option ℚ
  maxDepth : Option ℚ

/-- Row `i` of a numeric DataFrame, the feature vector handed to the
model. -/
def rowOf (X : NDF) (i : ℕ) : List FVal :=
  X.map (fun c => c.2.getD i FVal.fnan)

/-- The dict returned by `ModelPredictor.predict_single`
(predictor.py lines 88-94). -/
structure SingleRes where
  prediction : ℕ
  probability : ℚ
  risk_level : String
  risk_percentage : ℚ
  threshold_used : ℚ
deriving DecidableEq, Repr

/-- `ModelPredictor.predict_single` (predictor.py lines 64-94) with the
loaded state (model, threshold) and the preprocessor fill values passed
explicitly; the lazy `_ensure_loaded` of line 74 is `ensureLoaded`
below. -/
def predictSingle (fills : List (String × ℚ)) (model : Model) (th : ℚ)
    (data : Record) : Except String SingleRes := do
  let X ← preprocessSingle fills data
  let probability := model.fn (rowOf X 0)
  let prediction : ℕ := if th ≤ probability then 1 else 0
  return { prediction := prediction,
           probability := round4 probability,
           risk_level := if prediction = 1 then "HIGH" else "LOW",
           risk_percentage := round1 (probability * 100),
           threshold_used := th }

/-- One row of the DataFrame returned by `ModelPredictor.predict`
(predictor.py lines 121-125). -/
structure BatchRow where
  id : Val
  prediction : ℕ
  probability : ℚ
deriving DecidableEq, Repr

/-- `ModelPredictor.predict` (predictor.py lines 96-128): the ids are the
`id` column of the raw input when present, `range(len(df))` otherwise;
the probabilities come from `predict_proba` row by row; the decisions are
the element-wise comparison of line 118. -/
def predict (fills : List (String × ℚ)) (model : Model) (th : ℚ)
    (df : DF) : Except String (List BatchRow) := do
  let ids : List Val :=
    match lookupCol "id" df.cols with
    | some col => col
    | none => (List.range df.n).map (fun i : ℕ => Val.vnum i)
  let X ← transform fills df
  return (List.range df.n).map (fun i =>
    let p := model.fn (rowOf X i)
    { id := ids.getD i Val.vna,
      prediction := if th ≤ p then 1 else 0,
      probability := round4 p })

/-! ## Predictor lifecycle (`ModelPredictor.__init__` / `load_model` /
`_ensure_loaded` / `get_model_info`) -/

/-- The filesystem as the predictor sees it: whether the model and
threshold artifacts exist, and what `joblib.load` would return for
each. -/
structure PredEnv where
  modelExists : Bool
  modelArtifact : Model
  thresholdExists : Bool
  thresholdArtifact : ℚ

/-- The mutable state of a `ModelPredictor` instance (predictor.py lines
31-36): paths are fixed strings, `model`, `threshold` and `_is_loaded`
change on load. -/
structure PredState where
  modelPath : String
  thresholdPath : String
  model : Option Model
  threshold : ℚ
  isLoaded : Bool

/-- `ModelPredictor.__init__` (lines 23-36). -/
def mkPredictor (modelPath thresholdPath : String) : PredState :=
  { modelPath := modelPath, thresholdPath := thresholdPath,
    model := none, threshold := DEFAULT_THRESHOLD, isLoaded := false }

/-- `ModelPredictor.load_model` (lines 38-57): `FileNotFoundError` when
the model artifact is absent; otherwise load the model, load the
threshold or fall back to the default, and set `_is_loaded`. -/
def loadModel (env : PredEnv) (s : PredState) : Except String PredState :=
  if !env.modelExists then
    Except.error ("FileNotFoundError: model not found: " ++ s.modelPath)
  else
    Except.ok { s with
      model := some env.modelArtifact,
      threshold :=
        if env.thresholdExists then env.thresholdArtifact
        else DEFAULT_THRESHOLD,
      isLoaded := true }

/-- `ModelPredictor._ensure_loaded` (lines 59-62). -/
def ensureLoaded (env : PredEnv) (s : PredState) : Except String PredState :=
  if !s.isLoaded || s.model.isNone then loadModel env s else Except.ok s

/-- The dict returned by `get_model_info` (lines 134-146);
`n_estimators` / `max_depth` are present (outer `some`) only when the
model exposes `get_params`. -/
structure ModelInfo where
  model_type : String
  model_path : String
  threshold : ℚ
  is_loaded : Bool
  version : String
  n_estimators : Option (Option ℚ)
  max_depth : Option (Option ℚ)

/-- `ModelPredictor.get_model_info` (lines 130-148), state threaded
explicitly: calls `_ensure_loaded` first, then reads the (possibly
updated) state. -/
def getModelInfo (env : PredEnv) (s : PredState) :
    Except String (PredState × ModelInfo) :=
  (ensureLoaded env s).map (fun s2 =>
    (s2,
     { model_type := (s2.model.map Model.typeName).getD "NoneType",
       model_path := s2.modelPath,
       threshold := s2.threshold,
       is_loaded := s2.isLoaded,
       version := "V2 (with Feature Engineering)",
       n_estimators :=
         match s2.model with
         | some m => if m.hasGetParams then some m.nEstimators else none
         | none => none,
       max_depth :=
         match s2.model with
         | some m => if m.hasGetParams then some m.maxDepth else none
         | none => none }))

/-! ## V1 predictor (`src/models/model_predictor.py`) -/

/-- The V1 `DataPreprocessor.transform`
(`src/preprocessing/data_preprocessor.py` lines 50-66): a copy with no
transformation implemented. -/
def transformV1 (df : DF) : DF := df

/-- The V1 `ModelPredictor.predict`
(`src/models/model_predictor.py` lines 41-66); the CatBoost model is the
opaque row-label function `modelFn`.  The result pairs `df['id']` with the
predictions — `df['id']` raises `KeyError` when the column is absent. -/
def predictV1 (modelFn : DF → List ℚ) (df : DF) :
    Except String (List (Val × ℚ)) :=
  let X := transformV1 df
  let predictions := modelFn X
  match lookupCol "id" df.cols with
  | some ids => Except.ok (ids.zip predictions)
  | none => Except.error "KeyError: id"

/-! ## Spec-side definition of the feature synthesis (spec §4.3)

`specEngineered` is written from the spec formula list, for comparison
with the source-derived `createFeatures`; the spec claims the derived
columns are appended after the unchanged base columns. -/

/-- The derived columns as the spec §4.3 states them: every formula is
taken over the base columns of the input table (`Total_Risk_Score =
Lifestyle_Risk + Medical_Risk` expands to its base-column formula), all
appended after the unchanged base table. -/
def specEngineered (df : NDF) : NDF :=
  [("Lifestyle_Risk", lifestyleCol df),
   ("Medical_Risk", medicalCol df),
   ("Total_Risk_Score", List.zipWith FVal.fadd (lifestyleCol df) (medicalCol df)),
   ("Age_BMI", ageBmiCol df),
   ("Age_Cholesterol", ageCholCol df),
   ("Lipid_Total", lipidCol df),
   ("Pulse_Pressure", pulseCol df),
   ("Mean_Arterial_Pressure", meanArtCol df),
   ("Cardiac_Biomarkers", cardiacCol df),
   ("Activity_Balance", activityCol df),
   ("Sleep_Quality", sleepCol df),
   ("Age_squared", ageSqCol df),
   ("BMI_squared", bmiSqCol df),
   ("Cholesterol_squared", cholSqCol df),
   ("Smoking_Diabetes", smokeDiabCol df),
   ("Smoking_FamilyHistory", smokeFamCol df),
   ("Obesity_Diabetes", obesDiabCol df),
   ("Stress_Sedentary", stressSedCol df)]

/-! ## Row restriction (for the batch/single refinement) -/

/-- Restrict every column of a raw DataFrame to its `i`-th cell: the
one-row DataFrame holding row `i`. -/
def restrictV (cols : List (String × List Val)) (i : ℕ) :
    List (String × List Val) :=
  cols.map (fun c => (c.1, [c.2.getD i Val.vna]))

/-- Row `i` of a raw DataFrame as a one-row DataFrame. -/
def rowDF (df : DF) (i : ℕ) : DF := ⟨1, restrictV df.cols i⟩

/-- Row `i` of a raw DataFrame read back as a patient record (dict). -/
def recordOf (df : DF) (i : ℕ) : Record :=
  df.cols.map (fun c => (c.1, c.2.getD i Val.vna))

/-- Restrict every column of a numeric DataFrame to its `i`-th cell. -/
def restrictN (X : NDF) (i : ℕ) : NDF :=
  X.map (fun c => (c.1, [c.2.getD i FVal.fnan]))

/-- The observable part of one batch row: (decision, rounded
probability); `none` when the batch call raised. -/
def batchRowOut (fills : List (String × ℚ)) (model : Model) (th : ℚ)
    (df : DF) (i : ℕ) : Option (ℕ × ℚ) :=
  (predict fills model th df).toOption.map
    (fun rs => ((rs.getD i ⟨Val.vna, 0, 0⟩).prediction,
                (rs.getD i ⟨Val.vna, 0, 0⟩).probability))

/-- The observable part of a single-record call: (decision, rounded
probability); `none` when the call raised. -/
def singleOut (fills : List (String × ℚ)) (model : Model) (th : ℚ)
    (data : Record) : Option (ℕ × ℚ) :=
  (predictSingle fills model th data).toOption.map
    (fun r => (r.prediction, r.probability))

/-! ## Concrete instances used by witnesses and counterexamples -/

/-- A concrete trained-model stand-in whose probability is constantly
2/5. -/
def demoModel : Model :=
  { fn := fun _ => 2/5, typeName := "RandomForestClassifier",
    hasGetParams := true, nEstimators := some 100, maxDepth := some 10 }

/-- A concrete model stand-in whose probability is constantly 0.39995,
just below the default threshold. -/
def demoModelLow : Model :=
  { fn := fun _ => 39995/100000, typeName := "RandomForestClassifier",
    hasGetParams := true, nEstimators := some 100, maxDepth := some 10 }

/-- The preprocessed feature table of the empty record (all 25 base
columns synthesized as zero). -/
def demoX : NDF :=
  (preprocessSingle DEFAULT_FILL_VALUES []).toOption.getD []

/-- A 25-column numeric one-row table of zeros, named canonically. -/
def demoBaseNDF : NDF := BASE_FEATURES.map (fun b => (b, [FVal.fl 0]))

/-- A two-row table whose Gender column couples the rows: row 0 holds an
unencodable string, row 1 a valid label. -/
def coupledDF : DF := ⟨2, [("Gender", [Val.vstr "Unknown", Val.vstr "Male"])]⟩

/-- A two-row table without an `id` column. -/
def demoNoIdDF : DF := ⟨2, [("Age", [Val.vnum 0, Val.vnum 1])]⟩

/-- A filesystem with no artifacts at all. -/
def demoEnvMissing : PredEnv :=
  { modelExists := false, modelArtifact := demoModel,
    thresholdExists := false, thresholdArtifact := 2/5 }

/-- A filesystem offering a loadable model and threshold. -/
def demoEnvOk : PredEnv :=
  { modelExists := true, modelArtifact := demoModel,
    thresholdExists := true, thresholdArtifact := 2/5 }

/-- The Gender cell produced by normalizing a one-field record whose sex
field holds `v`. -/
def genderOut (v : Val) : Option (List FVal) :=
  (preprocessSingle DEFAULT_FILL_VALUES [("Gender", v)]).toOption.bind
    (lookupCol "Gender")

/-- Exact numeric cast of a cell (the action of `astype(float)` on cells
that cannot raise). -/
def toF : Val → FVal
  | Val.vnum q => FVal.fl q
  | _ => FVal.fnan

/-- The normalized 25-column one-row table that `transform` produces from
an all-numeric record before feature engineering: each canonical base
column holds the record's value, or 0 when the field is absent. -/
def baseNorm (data : Record) : NDF :=
  BASE_FEATURES.map (fun b => (b,
    [match lookupCol b data with
     | some (Val.vnum q) => FVal.fl q
     | _ => FVal.fl 0]))

/-- A predictor state that has already loaded `demoModel`. -/
def demoLoadedState : PredState :=
  { modelPath := "m", thresholdPath := "t", model := some demoModel,
    threshold := 2/5, isLoaded := true }

/-- The batch result on the id-less table under the constant model. -/
def demoNoIdRS : List BatchRow :=
  (predict DEFAULT_FILL_VALUES demoModel DEFAULT_THRESHOLD demoNoIdDF).toOption.getD []

/-! # Theorems -/

/-! ## Association-list and indexing lemmas -/

theorem lookupCol_eq_none_iff (name : String) (l : List (String × α)) :
    lookupCol name l = none ↔ name ∉ l.map Prod.fst := by
  induction l with
  | nil => simp [lookupCol]
  | cons c cs ih =>
      by_cases h : c.1 = name
      · simp [lookupCol, h]
      · simp only [lookupCol, if_neg h, ih, List.map_cons, List.mem_cons]
        constructor
        · intro hn hor
          rcases hor with he | hm
          · exact h he.symm
          · exact hn hm
        · intro hn hm
          exact hn (Or.inr hm)

theorem lookupCol_append_some (name : String) (l1 l2 : List (String × α))
    (c : α) (h : lookupCol name l1 = some c) :
    lookupCol name (l1 ++ l2) = some c := by
  induction l1 with
  | nil => simp [lookupCol] at h
  | cons x xs ih =>
      by_cases hx : x.1 = name
      · simp only [lookupCol, if_pos hx] at h ⊢
        exact h
      · simp only [lookupCol, if_neg hx] at h ⊢
        exact ih h

theorem lookupCol_append_none (name : String) (l1 l2 : List (String × α))
    (h : lookupCol name l1 = none) :
    lookupCol name (l1 ++ l2) = lookupCol name l2 := by
  induction l1 with
  | nil => simp
  | cons x xs ih =>
      by_cases hx : x.1 = name
      · simp [lookupCol, hx] at h
      · simp only [lookupCol, if_neg hx] at h ⊢
        exact ih h

theorem lookupCol_mem (name : String) (l : List (String × α)) (c : α)
    (h : lookupCol name l = some c) : (name, c) ∈ l := by
  induction l with
  | nil => simp [lookupCol] at h
  | cons x xs ih =>
      by_cases hx : x.1 = name
      · simp only [lookupCol, if_pos hx, Option.some.injEq] at h
        rw [List.mem_cons]
        left
        rw [Prod.ext_iff]
        exact ⟨hx.symm, h.symm⟩
      · simp only [lookupCol, if_neg hx] at h
        exact List.mem_cons_of_mem x (ih h)

theorem getD_map_lt (f : α → β) (l : List α) (i : ℕ) (h : i < l.length)
    (d0 : α) (d : β) : (l.map f).getD i d = f (l.getD i d0) := by
  induction l generalizing i with
  | nil => simp at h
  | cons x xs ih =>
      cases i with
      | zero => rfl
      | succ j =>
          simp only [List.map_cons, List.getD_cons_succ]
          exact ih j (by simpa using h)

theorem getD_range_lt (n i : ℕ) (h : i < n) (d : ℕ) :
    (List.range n).getD i d = i := by
  rw [List.getD_eq_getElem?_getD,
      List.getElem?_eq_getElem (by simpa using h)]
  simp

/-- Unfolding `predict_single` once preprocessing has succeeded. -/
theorem predictSingle_eq_ok (fills : List (String × ℚ)) (model : Model)
    (th : ℚ) (data : Record) (X : NDF)
    (hX : preprocessSingle fills data = Except.ok X) :
    predictSingle fills model th data = Except.ok
      { prediction := if th ≤ model.fn (rowOf X 0) then 1 else 0,
        probability := round4 (model.fn (rowOf X 0)),
        risk_level :=
          if (if th ≤ model.fn (rowOf X 0) then 1 else 0) = 1 then "HIGH"
          else "LOW",
        risk_percentage := round1 (model.fn (rowOf X 0) * 100),
        threshold_used := th } := by
  unfold predictSingle
  rw [hX]
  rfl

/-- C1: in `predict_single` (and in the identical comparison of the batch
path) the decision is the non-strict comparison `probability >= threshold`:
it is 1 exactly when the model probability is at least the threshold — in
particular 1 at exact equality — and 0 when the probability is strictly
below the threshold. -/
theorem threshold_decision_nonstrict (fills : List (String × ℚ))
    (model : Model) (th : ℚ) (data : Record) (X : NDF)
    (hX : preprocessSingle fills data = Except.ok X) :
    ∃ r, predictSingle fills model th data = Except.ok r ∧
      r.threshold_used = th ∧
      (r.prediction = 1 ↔ th ≤ model.fn (rowOf X 0)) ∧
      (model.fn (rowOf X 0) = th → r.prediction = 1) ∧
      (model.fn (rowOf X 0) < th → r.prediction = 0) := by
  refine ⟨_, predictSingle_eq_ok fills model th data X hX, rfl, ?_, ?_, ?_⟩
  · by_cases h : th ≤ model.fn (rowOf X 0) <;> simp [h]
  · intro h
    simp [h.ge]
  · intro h
    simp [not_le.mpr h]

/-- Witness for C1: the constant-2/5 model at the default threshold 2/5
classifies the empty record as 1 (probability exactly at the
threshold). -/
theorem threshold_decision_nonstrict_witness :
    ∃ r, predictSingle DEFAULT_FILL_VALUES demoModel DEFAULT_THRESHOLD [] =
        Except.ok r ∧
      r.threshold_used = DEFAULT_THRESHOLD ∧
      (r.prediction = 1 ↔ DEFAULT_THRESHOLD ≤ demoModel.fn (rowOf demoX 0)) ∧
      (demoModel.fn (rowOf demoX 0) = DEFAULT_THRESHOLD → r.prediction = 1) ∧
      (demoModel.fn (rowOf demoX 0) < DEFAULT_THRESHOLD → r.prediction = 0) :=
  threshold_decision_nonstrict DEFAULT_FILL_VALUES demoModel
    DEFAULT_THRESHOLD [] demoX rfl

/-- Any probability in `[2/5 - 1/20000, 2/5)` rounds (half-to-even, four
decimal places) up to exactly 2/5. -/
theorem round4_boundary (p : ℚ) (h1 : 2/5 - 1/20000 ≤ p) (h2 : p < 2/5) :
    round4 p = 2/5 := by
  have hf : ⌊p * 10000⌋ = 3999 := by
    rw [Int.floor_eq_iff]
    constructor
    · push_cast
      linarith
    · push_cast
      linarith
  have hge : (1 : ℚ)/2 ≤ p * 10000 - (3999 : ℤ) := by
    push_cast
    linarith
  unfold round4 halfEven
  rw [hf]
  rcases lt_or_eq_of_le hge with hgt | heq
  · rw [if_neg (by linarith), if_pos hgt]
    norm_num
  · rw [if_neg (by linarith), if_neg (by linarith),
      if_neg (by decide : ¬ (2 : ℤ) ∣ 3999)]
    norm_num

/-- C10: the decision uses the full-precision model probability while the
returned probability is rounded to four decimal places; at the default
threshold 0.40, every probability in `[0.40 - 0.00005, 0.40)` yields
prediction 0 together with a returned probability that is ≥ the returned
`threshold_used`. -/
theorem rounded_probability_boundary (fills : List (String × ℚ))
    (model : Model) (data : Record) (X : NDF)
    (hX : preprocessSingle fills data = Except.ok X)
    (h1 : DEFAULT_THRESHOLD - 1/20000 ≤ model.fn (rowOf X 0))
    (h2 : model.fn (rowOf X 0) < DEFAULT_THRESHOLD) :
    ∃ r, predictSingle fills model DEFAULT_THRESHOLD data = Except.ok r ∧
      r.prediction = 0 ∧
      r.probability = round4 (model.fn (rowOf X 0)) ∧
      r.threshold_used ≤ r.probability := by
  refine ⟨_, predictSingle_eq_ok fills model DEFAULT_THRESHOLD data X hX,
    ?_, rfl, ?_⟩
  · simp [not_le.mpr h2]
  · show DEFAULT_THRESHOLD ≤ round4 (model.fn (rowOf X 0))
    rw [round4_boundary (model.fn (rowOf X 0)) h1 h2]
    norm_num [DEFAULT_THRESHOLD]

/-- Witness for C10: the constant-0.39995 model on the empty record gets
prediction 0 while its reported probability rounds up to 0.4000 =
threshold_used. -/
theorem rounded_probability_boundary_witness :
    ∃ r, predictSingle DEFAULT_FILL_VALUES demoModelLow DEFAULT_THRESHOLD [] =
        Except.ok r ∧
      r.prediction = 0 ∧
      r.probability = round4 (demoModelLow.fn (rowOf demoX 0)) ∧
      r.threshold_used ≤ r.probability :=
  rounded_probability_boundary DEFAULT_FILL_VALUES demoModelLow [] demoX
    rfl (by norm_num [demoModelLow, DEFAULT_THRESHOLD])
    (by norm_num [demoModelLow, DEFAULT_THRESHOLD])

/-- C5: normalization maps the sex-field spellings "Male", 1 (= 1.0),
"1.0", "1" to the encoded cell 1 and "Female", 0 (= 0.0), "0.0", "0" to
the encoded cell 0 — all spellings of the same sex give the same encoded
output.  (Python `1` and `1.0` are one numeric value; both are the
embedded rational 1.) -/
theorem gender_encoding_symmetry :
    genderOut (Val.vstr "Male") = some [FVal.fl 1] ∧
    genderOut (Val.vnum 1) = some [FVal.fl 1] ∧
    genderOut (Val.vstr "1.0") = some [FVal.fl 1] ∧
    genderOut (Val.vstr "1") = some [FVal.fl 1] ∧
    genderOut (Val.vstr "Female") = some [FVal.fl 0] ∧
    genderOut (Val.vnum 0) = some [FVal.fl 0] ∧
    genderOut (Val.vstr "0.0") = some [FVal.fl 0] ∧
    genderOut (Val.vstr "0") = some [FVal.fl 0] :=
  ⟨rfl, rfl, rfl, rfl, rfl, rfl, rfl, rfl⟩

/-- C9: preprocessor construction is total; whenever the persisted
fill-value artifact is absent or its load fails, the fill values are the
hardcoded defaults; the default map covers exactly the nine columns with
missing values in training; and the `transform` method leaves the
preprocessor state — in particular the fill-value map — unchanged. -/
theorem fill_values_fallback :
    (∀ env : PreEnv, env.fillExists = false ∨ env.fillArtifact = none →
        (initPreprocessor env).fill_values = DEFAULT_FILL_VALUES) ∧
    DEFAULT_FILL_VALUES.map Prod.fst =
      ["Diabetes", "Family History", "Smoking", "Obesity",
       "Alcohol Consumption", "Previous Heart Problems", "Medication Use",
       "Stress Level", "Physical Activity Days Per Week"] ∧
    (∀ (s : PreState) (df : DF) (p : PreState × NDF),
        transformS s df = Except.ok p → p.1 = s) := by
  refine ⟨?_, rfl, ?_⟩
  · rintro env (h | h)
    · simp [initPreprocessor, h]
    · cases hE : env.fillExists <;> simp [initPreprocessor, h, hE]
  · intro s df p hp
    unfold transformS at hp
    cases htr : transform s.fill_values df with
    | error e =>
        rw [htr] at hp
        simp [Except.map] at hp
    | ok out =>
        rw [htr] at hp
        simp only [Except.map, Except.ok.injEq] at hp
        rw [← hp]

/-- Witness for C9: a filesystem with no persisted fill-value artifact
yields exactly the hardcoded default map. -/
theorem fill_values_fallback_witness :
    (initPreprocessor { fillExists := false, fillArtifact := none }).fill_values
      = DEFAULT_FILL_VALUES :=
  fill_values_fallback.1 { fillExists := false, fillArtifact := none }
    (Or.inl rfl)

/-- Counterexample to C7: on a fresh (not yet loaded) predictor,
`get_model_info` raises `FileNotFoundError` when the model artifact is
missing, and mutates the state (flips `_is_loaded`) when the artifact is
loadable — so it is not side-effect-free for every pipeline state. -/
theorem model_info_side_effect_cx :
    getModelInfo demoEnvMissing
        (mkPredictor "models/model_v2.joblib" "models/threshold_v2.joblib")
      = Except.error
          "FileNotFoundError: model not found: models/model_v2.joblib" ∧
    (getModelInfo demoEnvOk (mkPredictor "m" "t")).toOption.map
        (fun p => p.1.isLoaded) = some true ∧
    (mkPredictor "m" "t").isLoaded = false :=
  ⟨rfl, rfl, rfl⟩

/-- C7 amended: once the predictor is loaded (`_is_loaded` true and a
model object present), `get_model_info` returns the state unchanged and
never raises; on an unloaded state it first triggers the lazy load, which
can mutate the state or raise `FileNotFoundError`. -/
theorem model_info_readonly_when_loaded (env : PredEnv) (s : PredState)
    (m : Model) (h1 : s.isLoaded = true) (h2 : s.model = some m) :
    getModelInfo env s = Except.ok (s,
      { model_type := m.typeName,
        model_path := s.modelPath,
        threshold := s.threshold,
        is_loaded := true,
        version := "V2 (with Feature Engineering)",
        n_estimators := if m.hasGetParams then some m.nEstimators else none,
        max_depth := if m.hasGetParams then some m.maxDepth else none }) := by
  unfold getModelInfo ensureLoaded
  rw [h1, h2]
  simp [Except.map, h1, h2]

/-- Witness for C7: on a loaded state `get_model_info` is pure. -/
theorem model_info_readonly_when_loaded_witness :
    getModelInfo demoEnvOk demoLoadedState = Except.ok (demoLoadedState,
      { model_type := demoModel.typeName,
        model_path := demoLoadedState.modelPath,
        threshold := demoLoadedState.threshold,
        is_loaded := true,
        version := "V2 (with Feature Engineering)",
        n_estimators :=
          if demoModel.hasGetParams then some demoModel.nEstimators else none,
        max_depth :=
          if demoModel.hasGetParams then some demoModel.maxDepth else none }) :=
  model_info_readonly_when_loaded demoEnvOk demoLoadedState demoModel rfl rfl

/-- Counterexample to C8: on a two-row table with no `id` column, the V2
batch path assigns positional ids 0 and 1, but the V1 path raises
`KeyError` instead of assigning positional ids — the two paths do not
behave identically. -/
theorem v1_missing_id_cx :
    predictV1 (fun _ => [1, 0]) demoNoIdDF = Except.error "KeyError: id" ∧
    (predict DEFAULT_FILL_VALUES demoModel DEFAULT_THRESHOLD demoNoIdDF).toOption.map
        (fun rs => rs.map BatchRow.id) = some [Val.vnum 0, Val.vnum 1] :=
  ⟨rfl, rfl⟩

/-- C8 amended: on the V2 path, batch prediction assigns 0-based
positional ids when no `id` column exists and carries an existing `id`
column through unchanged; the V1 path carries an existing `id` column
through unchanged but raises `KeyError` when it is absent. -/
theorem batch_id_assignment (fills : List (String × ℚ)) (model : Model)
    (th : ℚ) (f1 : DF → List ℚ) (df : DF) (rs : List BatchRow)
    (hok : predict fills model th df = Except.ok rs) :
    ("id" ∉ df.cols.map Prod.fst →
        rs.map BatchRow.id = (List.range df.n).map (fun i : ℕ => Val.vnum i) ∧
        predictV1 f1 df = Except.error "KeyError: id") ∧
    (∀ ids, lookupCol "id" df.cols = some ids → ids.length = df.n →
        rs.map BatchRow.id = ids ∧
        predictV1 f1 df = Except.ok (ids.zip (f1 df))) := by
  constructor
  · intro hno
    have hnone : lookupCol "id" df.cols = none :=
      (lookupCol_eq_none_iff "id" df.cols).mpr hno
    constructor
    · cases htr : transform fills df with
      | error e =>
          have hpe : predict fills model th df = Except.error e := by
            unfold predict
            rw [hnone, htr]
            rfl
          exact Except.noConfusion (hpe.symm.trans hok)
      | ok X =>
          have hps : predict fills model th df = Except.ok
              ((List.range df.n).map (fun i =>
                { id := ((List.range df.n).map (fun j : ℕ => Val.vnum j)).getD
                    i Val.vna,
                  prediction := if th ≤ model.fn (rowOf X i) then 1 else 0,
                  probability := round4 (model.fn (rowOf X i)) })) := by
            unfold predict
            rw [hnone, htr]
            rfl
          have hrs := hps.symm.trans hok
          simp only [Except.ok.injEq] at hrs
          rw [← hrs, List.map_map]
          refine List.map_congr_left ?_
          intro i hi
          have hilt : i < df.n := List.mem_range.mp hi
          show ((List.range df.n).map (fun j : ℕ => Val.vnum j)).getD i Val.vna
              = Val.vnum i
          rw [getD_map_lt _ _ i (by simpa using hilt) 0,
              getD_range_lt df.n i hilt]
    · unfold predictV1
      rw [hnone]
  · intro ids hsome hlen
    constructor
    · cases htr : transform fills df with
      | error e =>
          have hpe : predict fills model th df = Except.error e := by
            unfold predict
            rw [hsome, htr]
            rfl
          exact Except.noConfusion (hpe.symm.trans hok)
      | ok X =>
          have hps : predict fills model th df = Except.ok
              ((List.range df.n).map (fun i =>
                { id := ids.getD i Val.vna,
                  prediction := if th ≤ model.fn (rowOf X i) then 1 else 0,
                  probability := round4 (model.fn (rowOf X i)) })) := by
            unfold predict
            rw [hsome, htr]
            rfl
          have hrs := hps.symm.trans hok
          simp only [Except.ok.injEq] at hrs
          rw [← hrs, List.map_map]
          refine List.ext_getElem ?_ ?_
          · simp [hlen]
          · intro i hi1 hi2
            have hilt : i < df.n := by simpa using hi1
            simp only [List.getElem_map, List.getElem_range]
            show ids.getD i Val.vna = ids[i]
            rw [List.getD_eq_getElem?_getD,
                List.getElem?_eq_getElem (by rw [hlen]; exact hilt)]
            rfl
    · unfold predictV1
      rw [hsome]
      rfl

/-- Witness for C8: the id-less two-row table gets positional ids on the
V2 path while the V1 path raises. -/
theorem batch_id_assignment_witness :
    demoNoIdRS.map BatchRow.id =
        (List.range demoNoIdDF.n).map (fun i : ℕ => Val.vnum i) ∧
    predictV1 (fun _ => [1, 0]) demoNoIdDF = Except.error "KeyError: id" :=
  (batch_id_assignment DEFAULT_FILL_VALUES demoModel DEFAULT_THRESHOLD
    (fun _ => [1, 0]) demoNoIdDF demoNoIdRS rfl).1 (by decide)

/-! ## Column-assignment lemmas for the feature synthesis -/

theorem setCol_of_not_mem (df : NDF) (name : String) (col : List FVal)
    (h : name ∉ df.map Prod.fst) :
    setCol df name col = df ++ [(name, col)] := by
  induction df with
  | nil => rfl
  | cons c cs ih =>
      have hc : ¬ c.1 = name := by
        intro he
        exact h (by rw [List.map_cons, he]; exact List.mem_cons_self _ _)
      simp only [setCol, if_neg hc, List.cons_append, List.cons.injEq,
        true_and]
      exact ih (fun hm => h (by rw [List.map_cons]; exact List.mem_cons_of_mem _ hm))

theorem colOf_append_left (d1 d2 : NDF) (name : String)
    (h : name ∈ d1.map Prod.fst) :
    colOf (d1 ++ d2) name = colOf d1 name := by
  cases hc : lookupCol name d1 with
  | none => exact absurd h (((lookupCol_eq_none_iff name d1).mp hc))
  | some c =>
      unfold colOf
      rw [lookupCol_append_some name d1 d2 c hc, hc]

theorem colOf_append_right (d1 d2 : NDF) (name : String)
    (h : name ∉ d1.map Prod.fst) :
    colOf (d1 ++ d2) name = colOf d2 name := by
  unfold colOf
  rw [lookupCol_append_none name d1 d2 ((lookupCol_eq_none_iff name d1).mpr h)]

theorem colOf_cons_hit (name : String) (c : List FVal) (rest : NDF) :
    colOf ((name, c) :: rest) name = c := by
  simp [colOf, lookupCol]

theorem colOf_cons_miss (n2 name : String) (c : List FVal) (rest : NDF)
    (h : ¬ n2 = name) :
    colOf ((n2, c) :: rest) name = colOf rest name := by
  simp [colOf, lookupCol, h]

/-- Reading a base column through any stack of appended engineered
columns reads the base table. -/
theorem colOf_acc_base (df eng : NDF) (hn : df.map Prod.fst = BASE_FEATURES)
    (b : String) (hb : b ∈ BASE_FEATURES) :
    colOf (df ++ eng) b = colOf df b :=
  colOf_append_left df eng b (by rw [hn]; exact hb)

/-- Reading an engineered column skips the base table. -/
theorem colOf_acc_eng (df eng : NDF) (hn : df.map Prod.fst = BASE_FEATURES)
    (b : String) (hb : b ∉ BASE_FEATURES) :
    colOf (df ++ eng) b = colOf eng b :=
  colOf_append_right df eng b (by rw [hn]; exact hb)

/-- One `df[name] = col` assignment during feature engineering: a fresh
name appends a column at the end. -/
theorem createFeatures_step (df eng : NDF)
    (hn : df.map Prod.fst = BASE_FEATURES) (name : String) (col : List FVal)
    (hname : name ∉ BASE_FEATURES) (heng : name ∉ eng.map Prod.fst) :
    setCol (df ++ eng) name col = df ++ (eng ++ [(name, col)]) := by
  have h : name ∉ (df ++ eng).map Prod.fst := by
    rw [List.map_append, hn]
    intro hm
    rcases List.mem_append.mp hm with h1 | h2
    · exact hname h1
    · exact heng h2
  rw [setCol_of_not_mem _ _ _ h, List.append_assoc]

/-- Line 69 reads only base columns. -/
theorem cf01_eq (df : NDF) (hn : df.map Prod.fst = BASE_FEATURES) :
    cf01 df = df ++ [("Lifestyle_Risk", lifestyleCol df)] := by
  unfold cf01
  rw [setCol_of_not_mem _ _ _ (by rw [hn]; decide)]

/-- Line 76 reads only base columns. -/
theorem cf02_eq (df eng : NDF) (hn : df.map Prod.fst = BASE_FEATURES)
    (heng : "Medical_Risk" ∉ eng.map Prod.fst) :
    cf02 (df ++ eng) = df ++ (eng ++ [("Medical_Risk", medicalCol df)]) := by
  unfold cf02
  rw [show medicalCol (df ++ eng) = medicalCol df by
        unfold medicalCol
        rw [colOf_acc_base df eng hn "Diabetes" (by decide),
            colOf_acc_base df eng hn "Family History" (by decide),
            colOf_acc_base df eng hn "Previous Heart Problems" (by decide)],
      createFeatures_step df eng hn "Medical_Risk" _ (by decide) heng]

/-- Line 82 reads the two columns created by lines 69 and 76. -/
theorem cf03_eq (df : NDF) (c1 c2 : List FVal)
    (hn : df.map Prod.fst = BASE_FEATURES) :
    cf03 (df ++ [("Lifestyle_Risk", c1), ("Medical_Risk", c2)]) =
      df ++ [("Lifestyle_Risk", c1), ("Medical_Risk", c2),
             ("Total_Risk_Score", List.zipWith FVal.fadd c1 c2)] := by
  unfold cf03
  rw [show totalCol (df ++ [("Lifestyle_Risk", c1), ("Medical_Risk", c2)])
        = List.zipWith FVal.fadd c1 c2 by
        unfold totalCol
        rw [colOf_acc_eng df _ hn "Lifestyle_Risk" (by decide),
            colOf_cons_hit,
            colOf_acc_eng df _ hn "Medical_Risk" (by decide),
            colOf_cons_miss "Lifestyle_Risk" "Medical_Risk" _ _ (by decide),
            colOf_cons_hit],
      createFeatures_step df [("Lifestyle_Risk", c1), ("Medical_Risk", c2)]
        hn "Total_Risk_Score" _ (by decide) (by simp)]
  simp only [List.cons_append, List.nil_append]

theorem cf04_eq (df eng : NDF) (hn : df.map Prod.fst = BASE_FEATURES)
    (heng : "Age_BMI" ∉ eng.map Prod.fst) :
    cf04 (df ++ eng) = df ++ (eng ++ [("Age_BMI", ageBmiCol df)]) := by
  unfold cf04
  rw [show ageBmiCol (df ++ eng) = ageBmiCol df by
        unfold ageBmiCol
        rw [colOf_acc_base df eng hn "Age" (by decide),
            colOf_acc_base df eng hn "BMI" (by decide)],
      createFeatures_step df eng hn "Age_BMI" _ (by decide) heng]

theorem cf05_eq (df eng : NDF) (hn : df.map Prod.fst = BASE_FEATURES)
    (heng : "Age_Cholesterol" ∉ eng.map Prod.fst) :
    cf05 (df ++ eng) = df ++ (eng ++ [("Age_Cholesterol", ageCholCol df)]) := by
  unfold cf05
  rw [show ageCholCol (df ++ eng) = ageCholCol df by
        unfold ageCholCol
        rw [colOf_acc_base df eng hn "Age" (by decide),
            colOf_acc_base df eng hn "Cholesterol" (by decide)],
      createFeatures_step df eng hn "Age_Cholesterol" _ (by decide) heng]

theorem cf06_eq (df eng : NDF) (hn : df.map Prod.fst = BASE_FEATURES)
    (heng : "Lipid_Total" ∉ eng.map Prod.fst) :
    cf06 (df ++ eng) = df ++ (eng ++ [("Lipid_Total", lipidCol df)]) := by
  unfold cf06
  rw [show lipidCol (df ++ eng) = lipidCol df by
        unfold lipidCol
        rw [colOf_acc_base df eng hn "Cholesterol" (by decide),
            colOf_acc_base df eng hn "Triglycerides" (by decide)],
      createFeatures_step df eng hn "Lipid_Total" _ (by decide) heng]

theorem cf07_eq (df eng : NDF) (hn : df.map Prod.fst = BASE_FEATURES)
    (heng : "Pulse_Pressure" ∉ eng.map Prod.fst) :
    cf07 (df ++ eng) = df ++ (eng ++ [("Pulse_Pressure", pulseCol df)]) := by
  unfold cf07
  rw [show pulseCol (df ++ eng) = pulseCol df by
        unfold pulseCol
        rw [colOf_acc_base df eng hn "Systolic blood pressure" (by decide),
            colOf_acc_base df eng hn "Diastolic blood pressure" (by decide)],
      createFeatures_step df eng hn "Pulse_Pressure" _ (by decide) heng]

theorem cf08_eq (df eng : NDF) (hn : df.map Prod.fst = BASE_FEATURES)
    (heng : "Mean_Arterial_Pressure" ∉ eng.map Prod.fst) :
    cf08 (df ++ eng) = df ++ (eng ++ [("Mean_Arterial_Pressure", meanArtCol df)]) := by
  unfold cf08
  rw [show meanArtCol (df ++ eng) = meanArtCol df by
        unfold meanArtCol
        rw [colOf_acc_base df eng hn "Systolic blood pressure" (by decide),
            colOf_acc_base df eng hn "Diastolic blood pressure" (by decide)],
      createFeatures_step df eng hn "Mean_Arterial_Pressure" _ (by decide) heng]

theorem cf09_eq (df eng : NDF) (hn : df.map Prod.fst = BASE_FEATURES)
    (heng : "Cardiac_Biomarkers" ∉ eng.map Prod.fst) :
    cf09 (df ++ eng) = df ++ (eng ++ [("Cardiac_Biomarkers", cardiacCol df)]) := by
  unfold cf09
  rw [show cardiacCol (df ++ eng) = cardiacCol df by
        unfold cardiacCol
        rw [colOf_acc_base df eng hn "CK-MB" (by decide),
            colOf_acc_base df eng hn "Troponin" (by decide)],
      createFeatures_step df eng hn "Cardiac_Biomarkers" _ (by decide) heng]

theorem cf10_eq (df eng : NDF) (hn : df.map Prod.fst = BASE_FEATURES)
    (heng : "Activity_Balance" ∉ eng.map Prod.fst) :
    cf10 (df ++ eng) = df ++ (eng ++ [("Activity_Balance", activityCol df)]) := by
  unfold cf10
  rw [show activityCol (df ++ eng) = activityCol df by
        unfold activityCol
        rw [colOf_acc_base df eng hn "Exercise Hours Per Week" (by decide),
            colOf_acc_base df eng hn "Sedentary Hours Per Day" (by decide)],
      createFeatures_step df eng hn "Activity_Balance" _ (by decide) heng]

theorem cf11_eq (df eng : NDF) (hn : df.map Prod.fst = BASE_FEATURES)
    (heng : "Sleep_Quality" ∉ eng.map Prod.fst) :
    cf11 (df ++ eng) = df ++ (eng ++ [("Sleep_Quality", sleepCol df)]) := by
  unfold cf11
  rw [show sleepCol (df ++ eng) = sleepCol df by
        unfold sleepCol
        rw [colOf_acc_base df eng hn "Sleep Hours Per Day" (by decide)],
      createFeatures_step df eng hn "Sleep_Quality" _ (by decide) heng]

theorem cf12_eq (df eng : NDF) (hn : df.map Prod.fst = BASE_FEATURES)
    (heng : "Age_squared" ∉ eng.map Prod.fst) :
    cf12 (df ++ eng) = df ++ (eng ++ [("Age_squared", ageSqCol df)]) := by
  unfold cf12
  rw [show ageSqCol (df ++ eng) = ageSqCol df by
        unfold ageSqCol
        rw [colOf_acc_base df eng hn "Age" (by decide)],
      createFeatures_step df eng hn "Age_squared" _ (by decide) heng]

theorem cf13_eq (df eng : NDF) (hn : df.map Prod.fst = BASE_FEATURES)
    (heng : "BMI_squared" ∉ eng.map Prod.fst) :
    cf13 (df ++ eng) = df ++ (eng ++ [("BMI_squared", bmiSqCol df)]) := by
  unfold cf13
  rw [show bmiSqCol (df ++ eng) = bmiSqCol df by
        unfold bmiSqCol
        rw [colOf_acc_base df eng hn "BMI" (by decide)],
      createFeatures_step df eng hn "BMI_squared" _ (by decide) heng]

theorem cf14_eq (df eng : NDF) (hn : df.map Prod.fst = BASE_FEATURES)
    (heng : "Cholesterol_squared" ∉ eng.map Prod.fst) :
    cf14 (df ++ eng) = df ++ (eng ++ [("Cholesterol_squared", cholSqCol df)]) := by
  unfold cf14
  rw [show cholSqCol (df ++ eng) = cholSqCol df by
        unfold cholSqCol
        rw [colOf_acc_base df eng hn "Cholesterol" (by decide)],
      createFeatures_step df eng hn "Cholesterol_squared" _ (by decide) heng]

theorem cf15_eq (df eng : NDF) (hn : df.map Prod.fst = BASE_FEATURES)
    (heng : "Smoking_Diabetes" ∉ eng.map Prod.fst) :
    cf15 (df ++ eng) = df ++ (eng ++ [("Smoking_Diabetes", smokeDiabCol df)]) := by
  unfold cf15
  rw [show smokeDiabCol (df ++ eng) = smokeDiabCol df by
        unfold smokeDiabCol
        rw [colOf_acc_base df eng hn "Smoking" (by decide),
            colOf_acc_base df eng hn "Diabetes" (by decide)],
      createFeatures_step df eng hn "Smoking_Diabetes" _ (by decide) heng]

theorem cf16_eq (df eng : NDF) (hn : df.map Prod.fst = BASE_FEATURES)
    (heng : "Smoking_FamilyHistory" ∉ eng.map Prod.fst) :
    cf16 (df ++ eng) = df ++ (eng ++ [("Smoking_FamilyHistory", smokeFamCol df)]) := by
  unfold cf16
  rw [show smokeFamCol (df ++ eng) = smokeFamCol df by
        unfold smokeFamCol
        rw [colOf_acc_base df eng hn "Smoking" (by decide),
            colOf_acc_base df eng hn "Family History" (by decide)],
      createFeatures_step df eng hn "Smoking_FamilyHistory" _ (by decide) heng]

theorem cf17_eq (df eng : NDF) (hn : df.map Prod.fst = BASE_FEATURES)
    (heng : "Obesity_Diabetes" ∉ eng.map Prod.fst) :
    cf17 (df ++ eng) = df ++ (eng ++ [("Obesity_Diabetes", obesDiabCol df)]) := by
  unfold cf17
  rw [show obesDiabCol (df ++ eng) = obesDiabCol df by
        unfold obesDiabCol
        rw [colOf_acc_base df eng hn "Obesity" (by decide),
            colOf_acc_base df eng hn "Diabetes" (by decide)],
      createFeatures_step df eng hn "Obesity_Diabetes" _ (by decide) heng]

theorem cf18_eq (df eng : NDF) (hn : df.map Prod.fst = BASE_FEATURES)
    (heng : "Stress_Sedentary" ∉ eng.map Prod.fst) :
    cf18 (df ++ eng) = df ++ (eng ++ [("Stress_Sedentary", stressSedCol df)]) := by
  unfold cf18
  rw [show stressSedCol (df ++ eng) = stressSedCol df by
        unfold stressSedCol
        rw [colOf_acc_base df eng hn "Stress Level" (by decide),
            colOf_acc_base df eng hn "Sedentary Hours Per Day" (by decide)],
      createFeatures_step df eng hn "Stress_Sedentary" _ (by decide) heng]

/-- The source `_create_features` refines the spec formula list §4.3: on
any table with exactly the canonical base columns it appends precisely the
`specEngineered` columns, leaving the input untouched. -/
theorem createFeatures_eq (df : NDF) (hn : df.map Prod.fst = BASE_FEATURES) :
    createFeatures df = df ++ specEngineered df := by
  unfold createFeatures
  rw [cf01_eq df hn]
  rw [cf02_eq df [("Lifestyle_Risk", lifestyleCol df)] hn (by simp)]
  simp only [List.cons_append, List.nil_append]
  rw [cf03_eq df (lifestyleCol df) (medicalCol df) hn]
  rw [cf04_eq df
      [("Lifestyle_Risk", lifestyleCol df), ("Medical_Risk", medicalCol df),
       ("Total_Risk_Score", List.zipWith FVal.fadd (lifestyleCol df) (medicalCol df))]
      hn (by simp)]
  simp only [List.cons_append, List.nil_append]
  rw [cf05_eq df
      [("Lifestyle_Risk", lifestyleCol df), ("Medical_Risk", medicalCol df),
       ("Total_Risk_Score", List.zipWith FVal.fadd (lifestyleCol df) (medicalCol df)),
       ("Age_BMI", ageBmiCol df)]
      hn (by simp)]
  simp only [List.cons_append, List.nil_append]
  rw [cf06_eq df
      [("Lifestyle_Risk", lifestyleCol df), ("Medical_Risk", medicalCol df),
       ("Total_Risk_Score", List.zipWith FVal.fadd (lifestyleCol df) (medicalCol df)),
       ("Age_BMI", ageBmiCol df), ("Age_Cholesterol", ageCholCol df)]
      hn (by simp)]
  simp only [List.cons_append, List.nil_append]
  rw [cf07_eq df
      [("Lifestyle_Risk", lifestyleCol df), ("Medical_Risk", medicalCol df),
       ("Total_Risk_Score", List.zipWith FVal.fadd (lifestyleCol df) (medicalCol df)),
       ("Age_BMI", ageBmiCol df), ("Age_Cholesterol", ageCholCol df),
       ("Lipid_Total", lipidCol df)]
      hn (by simp)]
  simp only [List.cons_append, List.nil_append]
  rw [cf08_eq df
      [("Lifestyle_Risk", lifestyleCol df), ("Medical_Risk", medicalCol df),
       ("Total_Risk_Score", List.zipWith FVal.fadd (lifestyleCol df) (medicalCol df)),
       ("Age_BMI", ageBmiCol df), ("Age_Cholesterol", ageCholCol df),
       ("Lipid_Total", lipidCol df), ("Pulse_Pressure", pulseCol df)]
      hn (by simp)]
  simp only [List.cons_append, List.nil_append]
  rw [cf09_eq df
      [("Lifestyle_Risk", lifestyleCol df), ("Medical_Risk", medicalCol df),
       ("Total_Risk_Score", List.zipWith FVal.fadd (lifestyleCol df) (medicalCol df)),
       ("Age_BMI", ageBmiCol df), ("Age_Cholesterol", ageCholCol df),
       ("Lipid_Total", lipidCol df), ("Pulse_Pressure", pulseCol df),
       ("Mean_Arterial_Pressure", meanArtCol df)]
      hn (by simp)]
  simp only [List.cons_append, List.nil_append]
  rw [cf10_eq df
      [("Lifestyle_Risk", lifestyleCol df), ("Medical_Risk", medicalCol df),
       ("Total_Risk_Score", List.zipWith FVal.fadd (lifestyleCol df) (medicalCol df)),
       ("Age_BMI", ageBmiCol df), ("Age_Cholesterol", ageCholCol df),
       ("Lipid_Total", lipidCol df), ("Pulse_Pressure", pulseCol df),
       ("Mean_Arterial_Pressure", meanArtCol df),
       ("Cardiac_Biomarkers", cardiacCol df)]
      hn (by simp)]
  simp only [List.cons_append, List.nil_append]
  rw [cf11_eq df
      [("Lifestyle_Risk", lifestyleCol df), ("Medical_Risk", medicalCol df),
       ("Total_Risk_Score", List.zipWith FVal.fadd (lifestyleCol df) (medicalCol df)),
       ("Age_BMI", ageBmiCol df), ("Age_Cholesterol", ageCholCol df),
       ("Lipid_Total", lipidCol df), ("Pulse_Pressure", pulseCol df),
       ("Mean_Arterial_Pressure", meanArtCol df),
       ("Cardiac_Biomarkers", cardiacCol df),
       ("Activity_Balance", activityCol df)]
      hn (by simp)]
  simp only [List.cons_append, List.nil_append]
  rw [cf12_eq df
      [("Lifestyle_Risk", lifestyleCol df), ("Medical_Risk", medicalCol df),
       ("Total_Risk_Score", List.zipWith FVal.fadd (lifestyleCol df) (medicalCol df)),
       ("Age_BMI", ageBmiCol df), ("Age_Cholesterol", ageCholCol df),
       ("Lipid_Total", lipidCol df), ("Pulse_Pressure", pulseCol df),
       ("Mean_Arterial_Pressure", meanArtCol df),
       ("Cardiac_Biomarkers", cardiacCol df),
       ("Activity_Balance", activityCol df), ("Sleep_Quality", sleepCol df)]
      hn (by simp)]
  simp only [List.cons_append, List.nil_append]
  rw [cf13_eq df
      [("Lifestyle_Risk", lifestyleCol df), ("Medical_Risk", medicalCol df),
       ("Total_Risk_Score", List.zipWith FVal.fadd (lifestyleCol df) (medicalCol df)),
       ("Age_BMI", ageBmiCol df), ("Age_Cholesterol", ageCholCol df),
       ("Lipid_Total", lipidCol df), ("Pulse_Pressure", pulseCol df),
       ("Mean_Arterial_Pressure", meanArtCol df),
       ("Cardiac_Biomarkers", cardiacCol df),
       ("Activity_Balance", activityCol df), ("Sleep_Quality", sleepCol df),
       ("Age_squared", ageSqCol df)]
      hn (by simp)]
  simp only [List.cons_append, List.nil_append]
  rw [cf14_eq df
      [("Lifestyle_Risk", lifestyleCol df), ("Medical_Risk", medicalCol df),
       ("Total_Risk_Score", List.zipWith FVal.fadd (lifestyleCol df) (medicalCol df)),
       ("Age_BMI", ageBmiCol df), ("Age_Cholesterol", ageCholCol df),
       ("Lipid_Total", lipidCol df), ("Pulse_Pressure", pulseCol df),
       ("Mean_Arterial_Pressure", meanArtCol df),
       ("Cardiac_Biomarkers", cardiacCol df),
       ("Activity_Balance", activityCol df), ("Sleep_Quality", sleepCol df),
       ("Age_squared", ageSqCol df), ("BMI_squared", bmiSqCol df)]
      hn (by simp)]
  simp only [List.cons_append, List.nil_append]
  rw [cf15_eq df
      [("Lifestyle_Risk", lifestyleCol df), ("Medical_Risk", medicalCol df),
       ("Total_Risk_Score", List.zipWith FVal.fadd (lifestyleCol df) (medicalCol df)),
       ("Age_BMI", ageBmiCol df), ("Age_Cholesterol", ageCholCol df),
       ("Lipid_Total", lipidCol df), ("Pulse_Pressure", pulseCol df),
       ("Mean_Arterial_Pressure", meanArtCol df),
       ("Cardiac_Biomarkers", cardiacCol df),
       ("Activity_Balance", activityCol df), ("Sleep_Quality", sleepCol df),
       ("Age_squared", ageSqCol df), ("BMI_squared", bmiSqCol df),
       ("Cholesterol_squared", cholSqCol df)]
      hn (by simp)]
  simp only [List.cons_append, List.nil_append]
  rw [cf16_eq df
      [("Lifestyle_Risk", lifestyleCol df), ("Medical_Risk", medicalCol df),
       ("Total_Risk_Score", List.zipWith FVal.fadd (lifestyleCol df) (medicalCol df)),
       ("Age_BMI", ageBmiCol df), ("Age_Cholesterol", ageCholCol df),
       ("Lipid_Total", lipidCol df), ("Pulse_Pressure", pulseCol df),
       ("Mean_Arterial_Pressure", meanArtCol df),
       ("Cardiac_Biomarkers", cardiacCol df),
       ("Activity_Balance", activityCol df), ("Sleep_Quality", sleepCol df),
       ("Age_squared", ageSqCol df), ("BMI_squared", bmiSqCol df),
       ("Cholesterol_squared", cholSqCol df),
       ("Smoking_Diabetes", smokeDiabCol df)]
      hn (by simp)]
  simp only [List.cons_append, List.nil_append]
  rw [cf17_eq df
      [("Lifestyle_Risk", lifestyleCol df), ("Medical_Risk", medicalCol df),
       ("Total_Risk_Score", List.zipWith FVal.fadd (lifestyleCol df) (medicalCol df)),
       ("Age_BMI", ageBmiCol df), ("Age_Cholesterol", ageCholCol df),
       ("Lipid_Total", lipidCol df), ("Pulse_Pressure", pulseCol df),
       ("Mean_Arterial_Pressure", meanArtCol df),
       ("Cardiac_Biomarkers", cardiacCol df),
       ("Activity_Balance", activityCol df), ("Sleep_Quality", sleepCol df),
       ("Age_squared", ageSqCol df), ("BMI_squared", bmiSqCol df),
       ("Cholesterol_squared", cholSqCol df),
       ("Smoking_Diabetes", smokeDiabCol df),
       ("Smoking_FamilyHistory", smokeFamCol df)]
      hn (by simp)]
  simp only [List.cons_append, List.nil_append]
  rw [cf18_eq df
      [("Lifestyle_Risk", lifestyleCol df), ("Medical_Risk", medicalCol df),
       ("Total_Risk_Score", List.zipWith FVal.fadd (lifestyleCol df) (medicalCol df)),
       ("Age_BMI", ageBmiCol df), ("Age_Cholesterol", ageCholCol df),
       ("Lipid_Total", lipidCol df), ("Pulse_Pressure", pulseCol df),
       ("Mean_Arterial_Pressure", meanArtCol df),
       ("Cardiac_Biomarkers", cardiacCol df),
       ("Activity_Balance", activityCol df), ("Sleep_Quality", sleepCol df),
       ("Age_squared", ageSqCol df), ("BMI_squared", bmiSqCol df),
       ("Cholesterol_squared", cholSqCol df),
       ("Smoking_Diabetes", smokeDiabCol df),
       ("Smoking_FamilyHistory", smokeFamCol df),
       ("Obesity_Diabetes", obesDiabCol df)]
      hn (by simp)]
  simp only [List.cons_append, List.nil_append]
  rfl

/-- Counterexample to C3: feature synthesis appends 18 derived columns
(the full spec formula list), not 17 — the spec's count of "17 engineered
features" (and the source docstring's, which says the same) undercounts
the assignments by one. -/
theorem engineered_count_cx :
    (createFeatures demoBaseNDF).length = 25 + 18 ∧ (25 + 18 : ℕ) ≠ 25 + 17 :=
  ⟨rfl, by decide⟩

/-- C3 amended: on every table with exactly the 25 canonical base columns
feature synthesis appends exactly the 18 derived columns given by the
stated formulas (`specEngineered`), in order, leaving the base columns'
values and order unchanged and dropping nothing. -/
theorem feature_synthesis_spec (df : NDF)
    (hn : df.map Prod.fst = BASE_FEATURES) :
    createFeatures df = df ++ specEngineered df ∧
    (createFeatures df).map Prod.fst = BASE_FEATURES ++ ENGINEERED_FEATURES ∧
    (createFeatures df).take 25 = df ∧
    ENGINEERED_FEATURES.length = 18 := by
  have h := createFeatures_eq df hn
  have hlen : df.length = 25 := by
    have h2 := congrArg List.length hn
    simpa using h2
  refine ⟨h, ?_, ?_, rfl⟩
  · rw [h, List.map_append, hn]
    rfl
  · rw [h, ← hlen]
    exact List.take_left df (specEngineered df)

/-- Witness for C3 (amended): the all-zero canonical table. -/
theorem feature_synthesis_spec_witness :
    createFeatures demoBaseNDF = demoBaseNDF ++ specEngineered demoBaseNDF ∧
    (createFeatures demoBaseNDF).map Prod.fst =
      BASE_FEATURES ++ ENGINEERED_FEATURES ∧
    (createFeatures demoBaseNDF).take 25 = demoBaseNDF ∧
    ENGINEERED_FEATURES.length = 18 :=
  feature_synthesis_spec demoBaseNDF rfl

/-! ## Behaviour of the normalization steps on numeric data -/

theorem bindE_ok (a : α) (f : α → Except String β) :
    (Except.ok a >>= f) = f a := rfl

theorem mapE_congr_ok (f : α → Except String β) (g : α → β) (l : List α)
    (h : ∀ x ∈ l, f x = Except.ok (g x)) : mapE f l = Except.ok (l.map g) := by
  induction l with
  | nil => rfl
  | cons x xs ih =>
      have hx := h x (List.mem_cons_self x xs)
      have ihh := ih (fun y hy => h y (List.mem_cons_of_mem x hy))
      unfold mapE
      rw [hx]
      show (mapE f xs >>= fun ys => pure (g x :: ys)) = _
      rw [ihh]
      rfl

theorem mapE_cons_error (f : α → Except String β) (x : α) (xs : List α)
    (e : String) (h : f x = Except.error e) :
    mapE f (x :: xs) = Except.error e := by
  unfold mapE
  rw [h]
  rfl

theorem genderStep1_num (q : ℚ) : genderStep1 (Val.vnum q) = Val.vnum q := by
  unfold genderStep1 genderReplace
  by_cases h0 : q = 0
  · simp [h0]
  · by_cases h1 : q = 1
    · simp [h0, h1]
    · simp [h0, h1]

theorem procGenderCol_num (col : List Val)
    (h : ∀ v ∈ col, ∃ q : ℚ, v = Val.vnum q) :
    procGenderCol col = Except.ok col := by
  have hmap : col.map genderStep1 = col := by
    have h2 : col.map genderStep1 = col.map id :=
      List.map_congr_left (fun v hv => by
        obtain ⟨q, rfl⟩ := h v hv
        exact genderStep1_num q)
    rw [h2, List.map_id]
  have hany : col.any Val.isStr = false := by
    simp only [List.any_eq_false]
    intro v hv
    obtain ⟨q, rfl⟩ := h v hv
    simp [Val.isStr]
  unfold procGenderCol
  rw [hmap]
  show (if col.any Val.isStr = true then mapE labelEnc col else Except.ok col)
      = Except.ok col
  rw [hany]
  simp

theorem fill_foldl_num (fills : List (String × ℚ))
    (d : List (String × List Val))
    (h : ∀ c ∈ d, ∀ v ∈ c.2, ∃ q : ℚ, v = Val.vnum q) :
    fills.foldl (fun dc cv =>
      dc.map (fun c => if c.1 = cv.1 then (c.1, c.2.map (fillNa cv.2)) else c))
      d = d := by
  induction fills with
  | nil => rfl
  | cons cv fs ih =>
      have hstep : d.map (fun c =>
          if c.1 = cv.1 then (c.1, c.2.map (fillNa cv.2)) else c) = d := by
        have hpt : ∀ c ∈ d,
            (if c.1 = cv.1 then (c.1, c.2.map (fillNa cv.2)) else c) = id c := by
          intro c hc
          by_cases hcc : c.1 = cv.1
          · rw [if_pos hcc]
            have hcells : c.2.map (fillNa cv.2) = c.2 := by
              have h2 : c.2.map (fillNa cv.2) = c.2.map id :=
                List.map_congr_left (fun v hv => by
                  obtain ⟨q, rfl⟩ := h c hc v hv
                  rfl)
              rw [h2, List.map_id]
            rw [hcells]
            exact Prod.mk.eta
          · rw [if_neg hcc]
            rfl
        rw [List.map_congr_left hpt, List.map_id]
      rw [List.foldl_cons, hstep]
      exact ih

theorem lookupCol_filter (p : String → Bool) (name : String)
    (l : List (String × α)) (hp : p name = true) :
    lookupCol name (l.filter (fun c => p c.1)) = lookupCol name l := by
  induction l with
  | nil => rfl
  | cons c cs ih =>
      obtain ⟨cn, cv⟩ := c
      by_cases hc : cn = name
      · subst hc
        simp [List.filter_cons, hp, lookupCol]
      · rw [List.filter_cons]
        cases hpc : p (cn, cv).1 with
        | true =>
            simp only [if_true]
            rw [show lookupCol name ((cn, cv) :: cs.filter (fun c => p c.1))
                  = lookupCol name (cs.filter (fun c => p c.1)) by
                simp [lookupCol, hc], ih]
            simp [lookupCol, hc]
        | false =>
            simp only [Bool.false_eq_true, if_false]
            rw [ih]
            simp [lookupCol, hc]

theorem lookupCol_map_snd (g : α → β) (name : String)
    (l : List (String × α)) :
    lookupCol name (l.map (fun kv => (kv.1, g kv.2))) =
      (lookupCol name l).map g := by
  induction l with
  | nil => rfl
  | cons c cs ih =>
      by_cases hc : c.1 = name
      · simp [lookupCol, hc]
      · simp [lookupCol, hc, ih]

theorem lookupCol_map_self (names : List String) (g : String → α)
    (b : String) (hb : b ∈ names) :
    lookupCol b (names.map (fun x => (x, g x))) = some (g b) := by
  induction names with
  | nil => cases hb
  | cons n ns ih =>
      by_cases hn : n = b
      · subst hn
        simp [lookupCol]
      · rcases List.mem_cons.mp hb with he | hm
        · exact absurd he.symm hn
        · simp [lookupCol, hn, ih hm]

theorem filterMap_lookup (names : List String) (d : List (String × α))
    (dflt : α) (h : ∀ b ∈ names, (lookupCol b d).isSome) :
    names.filterMap (fun b => (lookupCol b d).map (fun col => (b, col))) =
      names.map (fun b => (b, (lookupCol b d).getD dflt)) := by
  induction names with
  | nil => rfl
  | cons n ns ih =>
      cases hc : lookupCol n d with
      | none =>
          have := h n (List.mem_cons_self n ns)
          rw [hc] at this
          cases this
      | some c =>
          rw [List.filterMap_cons, List.map_cons, hc,
              ih (fun b hb => h b (List.mem_cons_of_mem n hb))]
          rfl

/-- Looking a canonical base column up after step 4 (zero-filling the
absent ones) always succeeds: it returns the step-3 column when present
and the synthesized zero column otherwise. -/
theorem lookup_d4 (d3 : List (String × List Val)) (n : ℕ) (b : String)
    (hb : b ∈ BASE_FEATURES) :
    lookupCol b (d3 ++
        (BASE_FEATURES.filter (fun x => (lookupCol x d3).isNone)).map
          (fun x => (x, List.replicate n (Val.vnum 0)))) =
      some ((lookupCol b d3).getD (List.replicate n (Val.vnum 0))) := by
  cases hc : lookupCol b d3 with
  | none =>
      rw [lookupCol_append_none _ _ _ hc]
      have hmem : b ∈ BASE_FEATURES.filter (fun x => (lookupCol x d3).isNone) :=
        List.mem_filter.mpr ⟨hb, by rw [hc]; rfl⟩
      rw [lookupCol_map_self _ _ _ hmem]
      rfl
  | some c =>
      rw [lookupCol_append_some _ _ _ _ hc]
      rfl

theorem genderColStep_num (c : String × List Val)
    (h : ∀ v ∈ c.2, ∃ q : ℚ, v = Val.vnum q) :
    genderColStep c = Except.ok c := by
  unfold genderColStep
  by_cases hg : c.1 = "Gender"
  · rw [if_pos hg, procGenderCol_num c.2 h]
    exact congrArg Except.ok Prod.mk.eta
  · rw [if_neg hg]

theorem step2_num (d1 : List (String × List Val))
    (h : ∀ c ∈ d1, ∀ v ∈ c.2, ∃ q : ℚ, v = Val.vnum q) :
    mapE genderColStep d1 = Except.ok d1 := by
  have h2 := mapE_congr_ok genderColStep id d1
    (fun c hc => genderColStep_num c (h c hc))
  rwa [List.map_id] at h2

theorem step6_num (d5 : List (String × List Val))
    (h : ∀ c ∈ d5, ∀ v ∈ c.2, ∃ q : ℚ, v = Val.vnum q) :
    mapE astypeCol d5 =
      Except.ok (d5.map (fun c => (c.1, c.2.map toF))) := by
  refine mapE_congr_ok _ _ _ (fun c hc => ?_)
  have hinner : mapE astypeF c.2 = Except.ok (c.2.map toF) :=
    mapE_congr_ok astypeF toF c.2 (fun v hv => by
      obtain ⟨q, hq⟩ := h c hc v hv
      rw [hq]
      rfl)
  unfold astypeCol
  rw [hinner]
  rfl

theorem baseNorm_names (data : Record) :
    (baseNorm data).map Prod.fst = BASE_FEATURES := by
  unfold baseNorm
  rw [List.map_map]
  exact List.map_id BASE_FEATURES

theorem lookup_baseNorm (data : Record) (b : String)
    (hb : b ∈ BASE_FEATURES) :
    lookupCol b (baseNorm data) = some
      [match lookupCol b data with
       | some (Val.vnum q) => FVal.fl q
       | _ => FVal.fl 0] :=
  lookupCol_map_self _ _ _ hb

/-- Master characterization: on a record whose present fields are all
numeric, `transform` cannot fail, and produces exactly the
feature-engineered extension of the canonical zero-completed base table
`baseNorm`. -/
theorem transform_single_numeric (fills : List (String × ℚ)) (data : Record)
    (hnum : ∀ kv ∈ data, ∃ q : ℚ, kv.2 = Val.vnum q) :
    transform fills (singleDF data) =
      Except.ok (createFeatures (baseNorm data)) := by
  have hd1num : ∀ c ∈ dropStep (singleDF data), ∀ v ∈ c.2,
      ∃ q : ℚ, v = Val.vnum q := by
    intro c hc v hv
    have hc2 : c ∈ (singleDF data).cols := List.mem_of_mem_filter hc
    obtain ⟨kv, hkv, hck⟩ := List.mem_map.mp hc2
    obtain ⟨q, hq⟩ := hnum kv hkv
    refine ⟨q, ?_⟩
    rw [← hck] at hv
    have hveq : v = kv.2 := by simpa using hv
    rw [hveq, hq]
  have h3 : fillStep fills (dropStep (singleDF data)) =
      dropStep (singleDF data) :=
    fill_foldl_num fills _ hd1num
  have hdropP : ∀ x ∈ BASE_FEATURES, (!(COLUMNS_TO_DROP.contains x)) = true := by
    decide
  have hd1lookup : ∀ b ∈ BASE_FEATURES,
      lookupCol b (dropStep (singleDF data)) =
        (lookupCol b data).map (fun v => [v]) := by
    intro b hb
    exact (lookupCol_filter (fun x => !(COLUMNS_TO_DROP.contains x)) b
        (singleDF data).cols (hdropP b hb)).trans
      (lookupCol_map_snd (fun v => [v]) b data)
  have hd4 : ∀ b ∈ BASE_FEATURES,
      lookupCol b (completeStep (singleDF data).n (dropStep (singleDF data))) =
        some ((lookupCol b (dropStep (singleDF data))).getD
          (List.replicate (singleDF data).n (Val.vnum 0))) := by
    intro b hb
    exact lookup_d4 _ _ b hb
  have hd5 : selectStep (completeStep (singleDF data).n
        (dropStep (singleDF data))) =
      BASE_FEATURES.map (fun b => (b,
        (lookupCol b (completeStep (singleDF data).n
          (dropStep (singleDF data)))).getD [])) :=
    filterMap_lookup BASE_FEATURES _ []
      (fun b hb => by rw [hd4 b hb]; rfl)
  have hd5num : ∀ c ∈ selectStep (completeStep (singleDF data).n
        (dropStep (singleDF data))), ∀ v ∈ c.2, ∃ q : ℚ, v = Val.vnum q := by
    rw [hd5]
    intro c hc v hv
    obtain ⟨b, hb, hcb⟩ := List.mem_map.mp hc
    rw [← hcb] at hv
    rw [hd4 b hb] at hv
    simp only [Option.getD_some] at hv
    cases hdl : lookupCol b (dropStep (singleDF data)) with
    | none =>
        rw [hdl] at hv
        simp only [Option.getD_none] at hv
        exact ⟨0, List.eq_of_mem_replicate hv⟩
    | some col =>
        rw [hdl] at hv
        simp only [Option.getD_some] at hv
        exact hd1num (b, col) (lookupCol_mem b _ col hdl) v hv
  have h6 := step6_num _ hd5num
  have hfinal : (selectStep (completeStep (singleDF data).n
        (dropStep (singleDF data)))).map (fun c => (c.1, c.2.map toF)) =
      baseNorm data := by
    rw [hd5, List.map_map]
    unfold baseNorm
    refine List.map_congr_left (fun b hb => ?_)
    show (b, ((lookupCol b (completeStep (singleDF data).n
        (dropStep (singleDF data)))).getD []).map toF) = _
    rw [hd4 b hb]
    simp only [Option.getD_some]
    rw [hd1lookup b hb]
    cases hld : lookupCol b data with
    | none => rfl
    | some v =>
        have hvmem := lookupCol_mem b data v hld
        obtain ⟨q, hq⟩ := hnum (b, v) hvmem
        have hv2 : v = Val.vnum q := hq
        rw [hv2]
        rfl
  unfold transform
  rw [step2_num _ hd1num, bindE_ok]
  show (mapE astypeCol (selectStep (completeStep (singleDF data).n
      (fillStep fills (dropStep (singleDF data))))) >>= fun d6 =>
      pure (createFeatures d6)) =
    Except.ok (createFeatures (baseNorm data))
  rw [h3, h6, bindE_ok]
  show Except.ok (createFeatures ((selectStep (completeStep (singleDF data).n
      (dropStep (singleDF data)))).map (fun c => (c.1, c.2.map toF)))) = _
  rw [hfinal]

/-- C4: a record missing any subset (possibly all) of the 25 base columns
— its present fields numeric — never raises: normalization synthesizes
every absent column with value 0 and yields the structurally valid
canonically-ordered table (base columns `baseNorm`, then the engineered
columns). -/
theorem missing_columns_zero_filled (fills : List (String × ℚ))
    (data : Record) (hnum : ∀ kv ∈ data, ∃ q : ℚ, kv.2 = Val.vnum q) :
    ∃ X, preprocessSingle fills data = Except.ok X ∧
      X.map Prod.fst = BASE_FEATURES ++ ENGINEERED_FEATURES ∧
      X.take 25 = baseNorm data ∧
      ∀ b ∈ BASE_FEATURES, b ∉ data.map Prod.fst →
        lookupCol b X = some [FVal.fl 0] := by
  refine ⟨createFeatures (baseNorm data),
    transform_single_numeric fills data hnum, ?_, ?_, ?_⟩
  · rw [createFeatures_eq _ (baseNorm_names data), List.map_append,
      baseNorm_names]
    rfl
  · rw [createFeatures_eq _ (baseNorm_names data)]
    have hlen : (baseNorm data).length = 25 := by
      unfold baseNorm
      simp [BASE_FEATURES]
    rw [← hlen]
    exact List.take_left _ _
  · intro b hb habs
    have hnone : lookupCol b data = none :=
      (lookupCol_eq_none_iff b data).mpr habs
    have hlb2 : lookupCol b (baseNorm data) = some [FVal.fl 0] := by
      rw [lookup_baseNorm data b hb, hnone]
    rw [createFeatures_eq _ (baseNorm_names data)]
    exact lookupCol_append_some b _ _ _ hlb2

/-- Witness for C4: the empty record (all 25 base columns missing) is
normalized without error into the all-zero canonical table. -/
theorem missing_columns_zero_filled_witness :
    ∃ X, preprocessSingle DEFAULT_FILL_VALUES [] = Except.ok X ∧
      X.map Prod.fst = BASE_FEATURES ++ ENGINEERED_FEATURES ∧
      X.take 25 = baseNorm [] ∧
      lookupCol "Age" X = some [FVal.fl 0] := by
  obtain ⟨X, h1, h2, h3, h4⟩ :=
    missing_columns_zero_filled DEFAULT_FILL_VALUES [] (by simp)
  exact ⟨X, h1, h2, h3, h4 "Age" (by decide) (by simp)⟩

/-- Counterexample to C6: on the record whose sex field is the unknown
string "Unknown", normalization raises the LabelEncoder's `ValueError` at
the encoding step — not the (distinct) type-coercion error of
`astype(float)` — so the unencoded value is not passed through to the
numeric-coercion step. -/
theorem unknown_gender_encoding_cx :
    preprocessSingle DEFAULT_FILL_VALUES [("Gender", Val.vstr "Unknown")] =
      Except.error ENC_ERR ∧
    ENC_ERR ≠ "ValueError: could not convert string to float: Unknown" :=
  ⟨rfl, by decide⟩

/-- C6 amended: a sex value matching no known representation is handled in
two ways — a string makes the trained fallback encoder raise `ValueError`
at the encoding step (the pipeline does fail there), while a numeric value
other than 0/1 is passed through unencoded and numeric coercion accepts it
(no failure at all). -/
theorem unknown_gender_behavior (fills : List (String × ℚ)) (s : String)
    (rest : Record)
    (h00 : s ≠ "0.0") (h0 : s ≠ "0") (h10 : s ≠ "1.0") (h1 : s ≠ "1")
    (hF : s ≠ "Female") (hM : s ≠ "Male") (q : ℚ) (hq0 : q ≠ 0)
    (hq1 : q ≠ 1) :
    preprocessSingle fills (("Gender", Val.vstr s) :: rest) =
      Except.error ENC_ERR ∧
    ∃ X, preprocessSingle fills [("Gender", Val.vnum q)] = Except.ok X ∧
      lookupCol "Gender" X = some [FVal.fl q] := by
  constructor
  · have hgs : genderStep1 (Val.vstr s) = Val.vstr s := by
      unfold genderStep1 genderReplace
      simp [h00, h0, h10, h1, hF, hM]
    have hle : labelEnc (Val.vstr s) = Except.error ENC_ERR := by
      unfold labelEnc
      rw [if_neg (by simp [hF]), if_neg (by simp [hM])]
    have hcol : procGenderCol [Val.vstr s] = Except.error ENC_ERR := by
      unfold procGenderCol
      simp only [List.map_cons, List.map_nil, hgs, List.any_cons,
        List.any_nil, Bool.or_false]
      rw [show Val.isStr (Val.vstr s) = true from rfl, if_pos rfl]
      exact mapE_cons_error _ _ _ _ hle
    have hhead : genderColStep ("Gender", [Val.vstr s]) =
        Except.error ENC_ERR := by
      unfold genderColStep
      rw [if_pos rfl, hcol]
      rfl
    have hdrop : dropStep (singleDF (("Gender", Val.vstr s) :: rest)) =
        ("Gender", [Val.vstr s]) :: dropStep (singleDF rest) := rfl
    unfold preprocessSingle transform
    rw [hdrop, mapE_cons_error _ _ _ _ hhead]
    rfl
  · have hnum : ∀ kv ∈ [("Gender", Val.vnum q)], ∃ r : ℚ, kv.2 = Val.vnum r := by
      intro kv hkv
      simp only [List.mem_singleton] at hkv
      subst hkv
      exact ⟨q, rfl⟩
    refine ⟨createFeatures (baseNorm [("Gender", Val.vnum q)]),
      transform_single_numeric fills _ hnum, ?_⟩
    have hlb : lookupCol "Gender" (baseNorm [("Gender", Val.vnum q)]) =
        some [FVal.fl q] := by
      rw [lookup_baseNorm _ _ (by decide)]
      rfl
    rw [createFeatures_eq _ (baseNorm_names _)]
    exact lookupCol_append_some _ _ _ _ hlb

/-- Witness for C6 (amended): "Unknown" raises the encoder error; the
numeric sex value 2 flows through to a structurally valid result. -/
theorem unknown_gender_behavior_witness :
    preprocessSingle DEFAULT_FILL_VALUES [("Gender", Val.vstr "Unknown")] =
      Except.error ENC_ERR ∧
    ∃ X, preprocessSingle DEFAULT_FILL_VALUES [("Gender", Val.vnum 2)] =
        Except.ok X ∧
      lookupCol "Gender" X = some [FVal.fl 2] :=
  unknown_gender_behavior DEFAULT_FILL_VALUES "Unknown" [] (by decide)
    (by decide) (by decide) (by decide) (by decide) (by decide) 2
    (by norm_num) (by norm_num)

/-! ## Row restriction commutes with the pipeline (batch / single
refinement) -/

theorem mapE_ok_cons_inv (f : α → Except String β) (x : α) (xs : List α)
    (l2 : List β) (h : mapE f (x :: xs) = Except.ok l2) :
    ∃ y ys, f x = Except.ok y ∧ mapE f xs = Except.ok ys ∧ l2 = y :: ys := by
  cases hx : f x with
  | error e =>
      rw [mapE_cons_error f x xs e hx] at h
      cases h
  | ok y =>
      cases hxs : mapE f xs with
      | error e =>
          unfold mapE at h
          rw [hx, hxs] at h
          cases h
      | ok ys =>
          refine ⟨y, ys, rfl, rfl, ?_⟩
          unfold mapE at h
          rw [hx, hxs] at h
          cases h
          rfl

theorem mapE_length (f : α → Except String β) (l : List α) (l2 : List β)
    (h : mapE f l = Except.ok l2) : l2.length = l.length := by
  induction l generalizing l2 with
  | nil =>
      cases h
      rfl
  | cons x xs ih =>
      obtain ⟨y, ys, _, hys, rfl⟩ := mapE_ok_cons_inv f x xs l2 h
      simp [ih ys hys]

theorem mapE_getD (f : α → Except String β) (l : List α) (l2 : List β)
    (h : mapE f l = Except.ok l2) :
    ∀ i, i < l.length → ∀ (d0 : α) (d1 : β),
      f (l.getD i d0) = Except.ok (l2.getD i d1) := by
  induction l generalizing l2 with
  | nil =>
      intro i hi
      simp at hi
  | cons x xs ih =>
      obtain ⟨y, ys, hy, hys, rfl⟩ := mapE_ok_cons_inv f x xs l2 h
      intro i hi d0 d1
      cases i with
      | zero => simpa using hy
      | succ j => exact ih ys hys j (by simpa using hi) d0 d1

theorem mapE_mem_inv (f : α → Except String β) (l : List α) (l2 : List β)
    (h : mapE f l = Except.ok l2) (y : β) (hy : y ∈ l2) :
    ∃ x ∈ l, f x = Except.ok y := by
  induction l generalizing l2 with
  | nil =>
      cases h
      cases hy
  | cons x xs ih =>
      obtain ⟨z, zs, hz, hzs, rfl⟩ := mapE_ok_cons_inv f x xs l2 h
      rcases List.mem_cons.mp hy with he | hm
      · exact ⟨x, List.mem_cons_self x xs, by rw [hz, he]⟩
      · obtain ⟨w, hw1, hw2⟩ := ih zs hzs hm
        exact ⟨w, List.mem_cons_of_mem x hw1, hw2⟩

theorem getD_zipWith_lt (F : FVal → FVal → FVal) (c1 c2 : List FVal)
    (i : ℕ) (h1 : i < c1.length) (h2 : i < c2.length) (d : FVal) :
    (List.zipWith F c1 c2).getD i d = F (c1.getD i d) (c2.getD i d) := by
  induction c1 generalizing c2 i with
  | nil => simp at h1
  | cons a as ih =>
      cases c2 with
      | nil => simp at h2
      | cons b bs =>
          cases i with
          | zero => rfl
          | succ j =>
              simp only [List.zipWith_cons_cons, List.getD_cons_succ]
              exact ih bs j (by simpa using h1) (by simpa using h2)

theorem getD_replicate_lt (n i : ℕ) (hi : i < n) (x d : Val) :
    (List.replicate n x).getD i d = x := by
  induction n generalizing i with
  | zero => simp at hi
  | succ m ih =>
      cases i with
      | zero => rfl
      | succ j =>
          simp only [List.replicate_succ, List.getD_cons_succ]
          exact ih j (by omega)

theorem restrictV_names (cols : List (String × List Val)) (i : ℕ) :
    (restrictV cols i).map Prod.fst = cols.map Prod.fst := by
  unfold restrictV
  rw [List.map_map]
  rfl

theorem restrictN_names (X : NDF) (i : ℕ) :
    (restrictN X i).map Prod.fst = X.map Prod.fst := by
  unfold restrictN
  rw [List.map_map]
  rfl

theorem lookup_restrictV (cols : List (String × List Val)) (i : ℕ)
    (b : String) :
    lookupCol b (restrictV cols i) =
      (lookupCol b cols).map (fun col => [col.getD i Val.vna]) := by
  unfold restrictV
  exact lookupCol_map_snd (fun col => [col.getD i Val.vna]) b cols

theorem lookup_restrictN (X : NDF) (i : ℕ) (b : String) :
    lookupCol b (restrictN X i) =
      (lookupCol b X).map (fun col => [col.getD i FVal.fnan]) := by
  unfold restrictN
  exact lookupCol_map_snd (fun col => [col.getD i FVal.fnan]) b X

theorem dropStep_rowDF (df : DF) (i : ℕ) :
    dropStep (rowDF df i) = restrictV (dropStep df) i := by
  show (restrictV df.cols i).filter (fun c => !(COLUMNS_TO_DROP.contains c.1))
      = restrictV (df.cols.filter (fun c => !(COLUMNS_TO_DROP.contains c.1))) i
  induction df.cols with
  | nil => rfl
  | cons c cs ih =>
      unfold restrictV
      simp only [List.map_cons, List.filter_cons]
      cases hp : !(COLUMNS_TO_DROP.contains c.1) with
      | true =>
          simp only [hp, if_true]
          unfold restrictV at ih
          rw [List.map_cons]
          exact congrArg (List.cons _) ih
      | false =>
          simp only [hp, Bool.false_eq_true, if_false]
          exact ih

/-- `genderStep1` never produces the labels the fitted encoder accepts
(those were already mapped to 0/1), so the fallback encoder, when
triggered, raises on every cell. -/
theorem genderStep1_ne_labels (v : Val) :
    genderStep1 v ≠ Val.vstr "Female" ∧ genderStep1 v ≠ Val.vstr "Male" := by
  unfold genderStep1
  constructor
  · show (if genderReplace v = Val.vstr "Female" then Val.vnum 0
        else if genderReplace v = Val.vstr "Male" then Val.vnum 1
        else genderReplace v) ≠ Val.vstr "Female"
    split_ifs with h1 h2
    · simp
    · simp
    · exact h1
  · show (if genderReplace v = Val.vstr "Female" then Val.vnum 0
        else if genderReplace v = Val.vstr "Male" then Val.vnum 1
        else genderReplace v) ≠ Val.vstr "Male"
    split_ifs with h1 h2
    · simp
    · simp
    · exact h2

theorem labelEnc_genderStep1 (v : Val) :
    labelEnc (genderStep1 v) = Except.error ENC_ERR := by
  unfold labelEnc
  rw [if_neg (genderStep1_ne_labels v).1, if_neg (genderStep1_ne_labels v).2]

/-- A successful Gender-column pass means no string survived the
replace/map/fillna cascade: the result is exactly the cell-wise map. -/
theorem procGenderCol_ok_inv (col : List Val) (col2 : List Val)
    (h : procGenderCol col = Except.ok col2) :
    col2 = col.map genderStep1 ∧
      (col.map genderStep1).any Val.isStr = false := by
  have h2 : (if (col.map genderStep1).any Val.isStr = true
      then mapE labelEnc (col.map genderStep1)
      else Except.ok (col.map genderStep1)) = Except.ok col2 := h
  cases hany : (col.map genderStep1).any Val.isStr with
  | false =>
      rw [hany] at h2
      simp only [Bool.false_eq_true, if_false] at h2
      cases h2
      exact ⟨rfl, rfl⟩
  | true =>
      rw [hany] at h2
      simp only [if_true] at h2
      cases col with
      | nil => cases hany
      | cons v vs =>
          rw [List.map_cons,
            mapE_cons_error labelEnc _ _ _ (labelEnc_genderStep1 v)] at h2
          cases h2

theorem genderColStep_restrict (c y : String × List Val) (i : ℕ)
    (hi : i < c.2.length) (h : genderColStep c = Except.ok y) :
    genderColStep (c.1, [c.2.getD i Val.vna]) =
      Except.ok (y.1, [y.2.getD i Val.vna]) := by
  unfold genderColStep at h ⊢
  by_cases hg : c.1 = "Gender"
  · rw [if_pos hg] at h ⊢
    cases hp : procGenderCol c.2 with
    | error e =>
        rw [hp] at h
        cases h
    | ok col2 =>
        rw [hp] at h
        obtain ⟨hcol2, hany⟩ := procGenderCol_ok_inv c.2 col2 hp
        subst hcol2
        have hyc : y = (c.1, c.2.map genderStep1) := by
          cases h
          rfl
        have hcell : genderStep1 (c.2.getD i Val.vna) =
            (c.2.map genderStep1).getD i Val.vna :=
          (getD_map_lt genderStep1 c.2 i hi Val.vna Val.vna).symm
        have hilen : i < (c.2.map genderStep1).length := by
          rw [List.length_map]
          exact hi
        have hmem : (c.2.map genderStep1).getD i Val.vna ∈
            c.2.map genderStep1 := by
          rw [List.getD_eq_getElem?_getD, List.getElem?_eq_getElem hilen]
          exact List.getElem_mem hilen
        have hnostr : Val.isStr ((c.2.map genderStep1).getD i Val.vna)
            = false := by
          simpa using List.any_eq_false.mp hany _ hmem
        have hproc : procGenderCol [c.2.getD i Val.vna] =
            Except.ok [(c.2.map genderStep1).getD i Val.vna] := by
          unfold procGenderCol
          simp only [List.map_cons, List.map_nil, hcell, List.any_cons,
            List.any_nil, Bool.or_false, hnostr, Bool.false_eq_true, if_false]
        rw [hproc, hyc]
        rfl
  · rw [if_neg hg] at h ⊢
    cases h
    rfl

theorem mapE_gender_restrict (d1 : List (String × List Val)) (i : ℕ)
    (hlen : ∀ c ∈ d1, i < c.2.length) (d2 : List (String × List Val))
    (hok : mapE genderColStep d1 = Except.ok d2) :
    mapE genderColStep (restrictV d1 i) = Except.ok (restrictV d2 i) := by
  induction d1 generalizing d2 with
  | nil =>
      cases hok
      rfl
  | cons c cs ih =>
      obtain ⟨y, ys, hy, hys, rfl⟩ := mapE_ok_cons_inv _ c cs d2 hok
      have hhead := genderColStep_restrict c y i
        (hlen c (List.mem_cons_self c cs)) hy
      have htail := ih (fun x hx => hlen x (List.mem_cons_of_mem c hx)) ys hys
      show mapE genderColStep ((c.1, [c.2.getD i Val.vna]) :: restrictV cs i)
          = Except.ok ((y.1, [y.2.getD i Val.vna]) :: restrictV ys i)
      unfold mapE
      rw [hhead, bindE_ok, htail]
      rfl

/-- One `fillna` pass commutes with row restriction. -/
theorem fill_one_restrict (cv : String × ℚ)
    (d : List (String × List Val)) (i : ℕ)
    (hlen : ∀ c ∈ d, i < c.2.length) :
    (restrictV d i).map (fun c =>
        if c.1 = cv.1 then (c.1, c.2.map (fillNa cv.2)) else c) =
      restrictV (d.map (fun c =>
        if c.1 = cv.1 then (c.1, c.2.map (fillNa cv.2)) else c)) i := by
  induction d with
  | nil => rfl
  | cons c cs ih =>
      unfold restrictV
      simp only [List.map_cons]
      have htail := ih (fun x hx => hlen x (List.mem_cons_of_mem c hx))
      unfold restrictV at htail
      refine congrArg₂ List.cons ?_ htail
      by_cases hcc : c.1 = cv.1
      · rw [if_pos hcc, if_pos hcc]
        show ((c.1 : String), [fillNa cv.2 (c.2.getD i Val.vna)]) =
          (c.1, [(c.2.map (fillNa cv.2)).getD i Val.vna])
        rw [getD_map_lt (fillNa cv.2) c.2 i
          (hlen c (List.mem_cons_self c cs)) Val.vna Val.vna]
      · rw [if_neg hcc, if_neg hcc]

/-- One `fillna` pass preserves cell counts. -/
theorem fill_one_len (cv : String × ℚ) (d : List (String × List Val))
    (i : ℕ) (hlen : ∀ c ∈ d, i < c.2.length) :
    ∀ c ∈ d.map (fun c =>
      if c.1 = cv.1 then (c.1, c.2.map (fillNa cv.2)) else c),
      i < c.2.length := by
  intro c hc
  obtain ⟨x, hx, rfl⟩ := List.mem_map.mp hc
  by_cases hcc : x.1 = cv.1
  · rw [if_pos hcc]
    simpa using hlen x hx
  · rw [if_neg hcc]
    exact hlen x hx

theorem fillStep_restrict (fills : List (String × ℚ))
    (d : List (String × List Val)) (i : ℕ)
    (hlen : ∀ c ∈ d, i < c.2.length) :
    fillStep fills (restrictV d i) = restrictV (fillStep fills d) i := by
  induction fills generalizing d with
  | nil => rfl
  | cons cv fs ih =>
      show fillStep fs ((restrictV d i).map (fun c =>
          if c.1 = cv.1 then (c.1, c.2.map (fillNa cv.2)) else c)) = _
      rw [fill_one_restrict cv d i hlen]
      exact ih _ (fill_one_len cv d i hlen)

/-- Each column of a filled frame keeps its cell count. -/
theorem fillStep_len (fills : List (String × ℚ))
    (d : List (String × List Val)) (i : ℕ)
    (hlen : ∀ c ∈ d, i < c.2.length) :
    ∀ c ∈ fillStep fills d, i < c.2.length := by
  induction fills generalizing d with
  | nil => exact hlen
  | cons cv fs ih =>
      show ∀ c ∈ fillStep fs (d.map (fun c =>
          if c.1 = cv.1 then (c.1, c.2.map (fillNa cv.2)) else c)),
        i < c.2.length
      exact ih _ (fill_one_len cv d i hlen)

theorem completeStep_restrict (d : List (String × List Val)) (n i : ℕ)
    (hi : i < n) :
    completeStep 1 (restrictV d i) = restrictV (completeStep n d) i := by
  unfold completeStep
  have happ : restrictV (d ++
      (BASE_FEATURES.filter (fun b => (lookupCol b d).isNone)).map
        (fun b => (b, List.replicate n (Val.vnum 0)))) i =
      restrictV d i ++ restrictV
        ((BASE_FEATURES.filter (fun b => (lookupCol b d).isNone)).map
          (fun b => (b, List.replicate n (Val.vnum 0)))) i := by
    unfold restrictV
    rw [List.map_append]
  rw [happ]
  refine congrArg₂ (· ++ ·) rfl ?_
  have hfil : (fun b => (lookupCol b (restrictV d i)).isNone) =
      (fun b => (lookupCol b d).isNone) := by
    funext b
    rw [lookup_restrictV]
    cases lookupCol b d <;> rfl
  rw [hfil]
  unfold restrictV
  rw [List.map_map]
  refine List.map_congr_left (fun b hb => ?_)
  show ((b : String), List.replicate 1 (Val.vnum 0)) =
    (b, [(List.replicate n (Val.vnum 0)).getD i Val.vna])
  rw [getD_replicate_lt n i hi]
  rfl

theorem selectStep_restrict (d : List (String × List Val)) (i : ℕ) :
    selectStep (restrictV d i) = restrictV (selectStep d) i := by
  unfold selectStep
  induction BASE_FEATURES with
  | nil => rfl
  | cons b ns ih =>
      rw [List.filterMap_cons, List.filterMap_cons, lookup_restrictV d i b]
      cases hlb : lookupCol b d with
      | none => simpa using ih
      | some col =>
          simp only [Option.map_some']
          show ((b, [col.getD i Val.vna]) :: _) = restrictV ((b, col) :: _) i
          unfold restrictV
          rw [List.map_cons]
          unfold restrictV at ih
          exact congrArg₂ List.cons rfl ih

theorem astypeCol_restrict (c : String × List Val) (y : String × List FVal)
    (i : ℕ) (hi : i < c.2.length) (h : astypeCol c = Except.ok y) :
    astypeCol (c.1, [c.2.getD i Val.vna]) =
      Except.ok (y.1, [y.2.getD i FVal.fnan]) := by
  unfold astypeCol at h ⊢
  cases hm : mapE astypeF c.2 with
  | error e =>
      rw [hm] at h
      cases h
  | ok col =>
      rw [hm] at h
      have hyc : y = (c.1, col) := by
        cases h
        rfl
      have hcell : astypeF (c.2.getD i Val.vna) =
          Except.ok (col.getD i FVal.fnan) :=
        mapE_getD astypeF c.2 col hm i hi Val.vna FVal.fnan
      have hsing : mapE astypeF [c.2.getD i Val.vna] =
          Except.ok [col.getD i FVal.fnan] := by
        unfold mapE
        rw [hcell, bindE_ok]
        rfl
      rw [hsing, hyc]
      rfl

theorem mapE_astype_restrict (d5 : List (String × List Val)) (i : ℕ)
    (hlen : ∀ c ∈ d5, i < c.2.length) (d6 : NDF)
    (hok : mapE astypeCol d5 = Except.ok d6) :
    mapE astypeCol (restrictV d5 i) = Except.ok (restrictN d6 i) := by
  induction d5 generalizing d6 with
  | nil =>
      cases hok
      rfl
  | cons c cs ih =>
      obtain ⟨y, ys, hy, hys, rfl⟩ := mapE_ok_cons_inv _ c cs d6 hok
      have hhead := astypeCol_restrict c y i
        (hlen c (List.mem_cons_self c cs)) hy
      have htail := ih (fun x hx => hlen x (List.mem_cons_of_mem c hx)) ys hys
      show mapE astypeCol ((c.1, [c.2.getD i Val.vna]) :: restrictV cs i)
          = Except.ok ((y.1, [y.2.getD i FVal.fnan]) :: restrictN ys i)
      unfold mapE
      rw [hhead, bindE_ok, htail]
      rfl

/-! ## Feature engineering commutes with row restriction -/

theorem lookupCol_isSome_of_mem (l : List (String × α)) (b : String)
    (hb : b ∈ l.map Prod.fst) : (lookupCol b l).isSome = true := by
  cases hc : lookupCol b l with
  | none => exact absurd hb ((lookupCol_eq_none_iff b l).mp hc)
  | some c => rfl

theorem colOf_restrict (X : NDF) (i : ℕ) (b : String)
    (hb : (lookupCol b X).isSome = true) :
    colOf (restrictN X i) b = [(colOf X b).getD i FVal.fnan] := by
  unfold colOf
  rw [lookup_restrictN]
  cases hc : lookupCol b X with
  | none =>
      rw [hc] at hb
      cases hb
  | some col => rfl

theorem colOf_len (X : NDF) (n : ℕ) (hlen : ∀ c ∈ X, c.2.length = n)
    (b : String) (hb : (lookupCol b X).isSome = true) :
    (colOf X b).length = n := by
  cases hc : lookupCol b X with
  | none =>
      rw [hc] at hb
      cases hb
  | some col =>
      unfold colOf
      rw [hc]
      exact hlen (b, col) (lookupCol_mem b X col hc)

theorem length_zipWith_eq (F : FVal → FVal → FVal) (c1 c2 : List FVal)
    (n : ℕ) (h1 : c1.length = n) (h2 : c2.length = n) :
    (List.zipWith F c1 c2).length = n := by
  rw [List.length_zipWith, h1, h2]
  exact Nat.min_self n

theorem zipWith_single (F : FVal → FVal → FVal) (c1 c2 : List FVal)
    (i n : ℕ) (h1 : c1.length = n) (h2 : c2.length = n) (hi : i < n) :
    List.zipWith F [c1.getD i FVal.fnan] [c2.getD i FVal.fnan] =
      [(List.zipWith F c1 c2).getD i FVal.fnan] := by
  show [F (c1.getD i FVal.fnan) (c2.getD i FVal.fnan)] = _
  rw [getD_zipWith_lt F c1 c2 i (by omega) (by omega) FVal.fnan]

theorem map_single (f : FVal → FVal) (c : List FVal) (i n : ℕ)
    (h : c.length = n) (hi : i < n) :
    [f (c.getD i FVal.fnan)] = [(c.map f).getD i FVal.fnan] := by
  rw [getD_map_lt f c i (by omega) FVal.fnan FVal.fnan]

/-- Two-base-column arithmetic commutes with row restriction. -/
theorem zip2_restrict (F : FVal → FVal → FVal) (X : NDF) (n i : ℕ)
    (hn : X.map Prod.fst = BASE_FEATURES) (hlen : ∀ c ∈ X, c.2.length = n)
    (hi : i < n) (b1 b2 : String) (hb1 : b1 ∈ BASE_FEATURES)
    (hb2 : b2 ∈ BASE_FEATURES) :
    List.zipWith F (colOf (restrictN X i) b1) (colOf (restrictN X i) b2) =
      [(List.zipWith F (colOf X b1) (colOf X b2)).getD i FVal.fnan] := by
  have h1 := lookupCol_isSome_of_mem X b1 (by rw [hn]; exact hb1)
  have h2 := lookupCol_isSome_of_mem X b2 (by rw [hn]; exact hb2)
  rw [colOf_restrict X i b1 h1, colOf_restrict X i b2 h2]
  exact zipWith_single F _ _ i n (colOf_len X n hlen b1 h1)
    (colOf_len X n hlen b2 h2) hi

/-- Single-base-column cell-wise arithmetic commutes with row
restriction. -/
theorem map1_restrict (f : FVal → FVal) (X : NDF) (n i : ℕ)
    (hn : X.map Prod.fst = BASE_FEATURES) (hlen : ∀ c ∈ X, c.2.length = n)
    (hi : i < n) (b : String) (hb : b ∈ BASE_FEATURES) :
    (colOf (restrictN X i) b).map f =
      [((colOf X b).map f).getD i FVal.fnan] := by
  have h1 := lookupCol_isSome_of_mem X b (by rw [hn]; exact hb)
  rw [colOf_restrict X i b h1]
  simp only [List.map_cons, List.map_nil]
  exact map_single f _ i n (colOf_len X n hlen b h1) hi

theorem lifestyleCol_restrict (X : NDF) (n i : ℕ)
    (hn : X.map Prod.fst = BASE_FEATURES) (hlen : ∀ c ∈ X, c.2.length = n)
    (hi : i < n) :
    lifestyleCol (restrictN X i) = [(lifestyleCol X).getD i FVal.fnan] := by
  have hS := lookupCol_isSome_of_mem X "Smoking" (by rw [hn]; decide)
  have hO := lookupCol_isSome_of_mem X "Obesity" (by rw [hn]; decide)
  have hA := lookupCol_isSome_of_mem X "Alcohol Consumption" (by rw [hn]; decide)
  have hP := lookupCol_isSome_of_mem X "Physical Activity Days Per Week"
    (by rw [hn]; decide)
  have lS := colOf_len X n hlen "Smoking" hS
  have lO := colOf_len X n hlen "Obesity" hO
  have lA := colOf_len X n hlen "Alcohol Consumption" hA
  have lP := colOf_len X n hlen "Physical Activity Days Per Week" hP
  have lSO := length_zipWith_eq FVal.fadd _ _ n lS lO
  have lSOA := length_zipWith_eq FVal.fadd _ _ n lSO lA
  have lPf : ((colOf X "Physical Activity Days Per Week").map
      (fun v => FVal.csub 1 (FVal.fdivC v 7))).length = n := by
    rw [List.length_map]
    exact lP
  unfold lifestyleCol
  rw [colOf_restrict X i "Smoking" hS, colOf_restrict X i "Obesity" hO,
      colOf_restrict X i "Alcohol Consumption" hA,
      colOf_restrict X i "Physical Activity Days Per Week" hP]
  simp only [List.zipWith_cons_cons, List.zipWith_nil_right, List.map_cons,
    List.map_nil]
  rw [getD_zipWith_lt FVal.fadd _ _ i (by omega) (by omega) FVal.fnan,
      getD_zipWith_lt FVal.fadd _ _ i (by omega) (by omega) FVal.fnan,
      getD_zipWith_lt FVal.fadd _ _ i (by omega) (by omega) FVal.fnan,
      getD_map_lt _ _ i (by omega) FVal.fnan FVal.fnan]

theorem lifestyleCol_len (X : NDF) (n : ℕ)
    (hn : X.map Prod.fst = BASE_FEATURES)
    (hlen : ∀ c ∈ X, c.2.length = n) : (lifestyleCol X).length = n := by
  have hS := lookupCol_isSome_of_mem X "Smoking" (by rw [hn]; decide)
  have hO := lookupCol_isSome_of_mem X "Obesity" (by rw [hn]; decide)
  have hA := lookupCol_isSome_of_mem X "Alcohol Consumption" (by rw [hn]; decide)
  have hP := lookupCol_isSome_of_mem X "Physical Activity Days Per Week"
    (by rw [hn]; decide)
  unfold lifestyleCol
  refine length_zipWith_eq _ _ _ n
    (length_zipWith_eq _ _ _ n
      (length_zipWith_eq _ _ _ n (colOf_len X n hlen _ hS)
        (colOf_len X n hlen _ hO))
      (colOf_len X n hlen _ hA)) ?_
  rw [List.length_map]
  exact colOf_len X n hlen _ hP

theorem medicalCol_restrict (X : NDF) (n i : ℕ)
    (hn : X.map Prod.fst = BASE_FEATURES) (hlen : ∀ c ∈ X, c.2.length = n)
    (hi : i < n) :
    medicalCol (restrictN X i) = [(medicalCol X).getD i FVal.fnan] := by
  have hD := lookupCol_isSome_of_mem X "Diabetes" (by rw [hn]; decide)
  have hF := lookupCol_isSome_of_mem X "Family History" (by rw [hn]; decide)
  have hH := lookupCol_isSome_of_mem X "Previous Heart Problems"
    (by rw [hn]; decide)
  have lD := colOf_len X n hlen "Diabetes" hD
  have lF := colOf_len X n hlen "Family History" hF
  have lH := colOf_len X n hlen "Previous Heart Problems" hH
  have lDF := length_zipWith_eq FVal.fadd _ _ n lD lF
  unfold medicalCol
  rw [colOf_restrict X i "Diabetes" hD, colOf_restrict X i "Family History" hF,
      colOf_restrict X i "Previous Heart Problems" hH]
  simp only [List.zipWith_cons_cons, List.zipWith_nil_right]
  rw [getD_zipWith_lt FVal.fadd _ _ i (by omega) (by omega) FVal.fnan,
      getD_zipWith_lt FVal.fadd _ _ i (by omega) (by omega) FVal.fnan]

theorem medicalCol_len (X : NDF) (n : ℕ)
    (hn : X.map Prod.fst = BASE_FEATURES)
    (hlen : ∀ c ∈ X, c.2.length = n) : (medicalCol X).length = n := by
  have hD := lookupCol_isSome_of_mem X "Diabetes" (by rw [hn]; decide)
  have hF := lookupCol_isSome_of_mem X "Family History" (by rw [hn]; decide)
  have hH := lookupCol_isSome_of_mem X "Previous Heart Problems"
    (by rw [hn]; decide)
  unfold medicalCol
  exact length_zipWith_eq _ _ _ n
    (length_zipWith_eq _ _ _ n (colOf_len X n hlen _ hD)
      (colOf_len X n hlen _ hF))
    (colOf_len X n hlen _ hH)

theorem meanArtCol_restrict (X : NDF) (n i : ℕ)
    (hn : X.map Prod.fst = BASE_FEATURES) (hlen : ∀ c ∈ X, c.2.length = n)
    (hi : i < n) :
    meanArtCol (restrictN X i) = [(meanArtCol X).getD i FVal.fnan] := by
  have hSy := lookupCol_isSome_of_mem X "Systolic blood pressure"
    (by rw [hn]; decide)
  have hDi := lookupCol_isSome_of_mem X "Diastolic blood pressure"
    (by rw [hn]; decide)
  have lSy := colOf_len X n hlen "Systolic blood pressure" hSy
  have lDi := colOf_len X n hlen "Diastolic blood pressure" hDi
  have lPP := length_zipWith_eq FVal.fsub _ _ n lSy lDi
  have lPPf : ((List.zipWith FVal.fsub (colOf X "Systolic blood pressure")
      (colOf X "Diastolic blood pressure")).map
        (fun v => FVal.fdivC v 3)).length = n := by
    rw [List.length_map]
    exact lPP
  unfold meanArtCol
  rw [colOf_restrict X i "Systolic blood pressure" hSy,
      colOf_restrict X i "Diastolic blood pressure" hDi]
  simp only [List.zipWith_cons_cons, List.zipWith_nil_right, List.map_cons,
    List.map_nil]
  rw [getD_zipWith_lt FVal.fadd _ _ i (by omega) (by omega) FVal.fnan,
      getD_map_lt _ _ i (by omega) FVal.fnan FVal.fnan,
      getD_zipWith_lt FVal.fsub _ _ i (by omega) (by omega) FVal.fnan]

theorem restrictN_cons (nm : String) (col : List FVal) (rest : NDF)
    (i : ℕ) :
    restrictN ((nm, col) :: rest) i =
      (nm, [col.getD i FVal.fnan]) :: restrictN rest i := rfl

theorem restrictN_nil (i : ℕ) : restrictN ([] : NDF) i = [] := rfl

theorem specEngineered_restrict (X : NDF) (n i : ℕ)
    (hn : X.map Prod.fst = BASE_FEATURES) (hlen : ∀ c ∈ X, c.2.length = n)
    (hi : i < n) :
    specEngineered (restrictN X i) = restrictN (specEngineered X) i := by
  unfold specEngineered ageBmiCol ageCholCol lipidCol pulseCol cardiacCol
    activityCol sleepCol ageSqCol bmiSqCol cholSqCol smokeDiabCol
    smokeFamCol obesDiabCol stressSedCol
  simp only [restrictN_cons, restrictN_nil]
  rw [lifestyleCol_restrict X n i hn hlen hi,
      medicalCol_restrict X n i hn hlen hi,
      meanArtCol_restrict X n i hn hlen hi,
      zipWith_single FVal.fadd (lifestyleCol X) (medicalCol X) i n
        (lifestyleCol_len X n hn hlen) (medicalCol_len X n hn hlen) hi,
      zip2_restrict FVal.fmul X n i hn hlen hi "Age" "BMI"
        (by decide) (by decide),
      zip2_restrict FVal.fmul X n i hn hlen hi "Age" "Cholesterol"
        (by decide) (by decide),
      zip2_restrict FVal.fadd X n i hn hlen hi "Cholesterol" "Triglycerides"
        (by decide) (by decide),
      zip2_restrict FVal.fsub X n i hn hlen hi "Systolic blood pressure"
        "Diastolic blood pressure" (by decide) (by decide),
      zip2_restrict FVal.fadd X n i hn hlen hi "CK-MB" "Troponin"
        (by decide) (by decide),
      zip2_restrict FVal.fsub X n i hn hlen hi "Exercise Hours Per Week"
        "Sedentary Hours Per Day" (by decide) (by decide),
      map1_restrict (fun v => FVal.csub 1
          (FVal.fmul (FVal.fabs (FVal.subC v (1/2))) (FVal.fl 2)))
        X n i hn hlen hi "Sleep Hours Per Day" (by decide),
      map1_restrict FVal.fsq X n i hn hlen hi "Age" (by decide),
      map1_restrict FVal.fsq X n i hn hlen hi "BMI" (by decide),
      map1_restrict FVal.fsq X n i hn hlen hi "Cholesterol" (by decide),
      zip2_restrict FVal.fmul X n i hn hlen hi "Smoking" "Diabetes"
        (by decide) (by decide),
      zip2_restrict FVal.fmul X n i hn hlen hi "Smoking" "Family History"
        (by decide) (by decide),
      zip2_restrict FVal.fmul X n i hn hlen hi "Obesity" "Diabetes"
        (by decide) (by decide),
      zip2_restrict FVal.fmul X n i hn hlen hi "Stress Level"
        "Sedentary Hours Per Day" (by decide) (by decide)]

theorem createFeatures_restrict (X : NDF) (n i : ℕ)
    (hn : X.map Prod.fst = BASE_FEATURES) (hlen : ∀ c ∈ X, c.2.length = n)
    (hi : i < n) :
    createFeatures (restrictN X i) = restrictN (createFeatures X) i := by
  rw [createFeatures_eq X hn,
      createFeatures_eq (restrictN X i) (by rw [restrictN_names, hn])]
  have happ : restrictN (X ++ specEngineered X) i =
      restrictN X i ++ restrictN (specEngineered X) i := by
    unfold restrictN
    rw [List.map_append]
  rw [happ, specEngineered_restrict X n i hn hlen hi]

/-! ## The whole pipeline commutes with row restriction -/

theorem genderColStep_len (x y : String × List Val)
    (h : genderColStep x = Except.ok y) : y.2.length = x.2.length := by
  unfold genderColStep at h
  by_cases hg : x.1 = "Gender"
  · rw [if_pos hg] at h
    cases hp : procGenderCol x.2 with
    | error e =>
        rw [hp] at h
        cases h
    | ok col2 =>
        rw [hp] at h
        obtain ⟨hcol2, _⟩ := procGenderCol_ok_inv x.2 col2 hp
        cases h
        show col2.length = x.2.length
        rw [hcol2, List.length_map]
  · rw [if_neg hg] at h
    cases h
    rfl

theorem fillStep_len_eq (fills : List (String × ℚ))
    (d : List (String × List Val)) (n : ℕ)
    (h : ∀ c ∈ d, c.2.length = n) :
    ∀ c ∈ fillStep fills d, c.2.length = n := by
  induction fills generalizing d with
  | nil => exact h
  | cons cv fs ih =>
      show ∀ c ∈ fillStep fs (d.map (fun c =>
          if c.1 = cv.1 then (c.1, c.2.map (fillNa cv.2)) else c)),
        c.2.length = n
      refine ih _ ?_
      intro c hc
      obtain ⟨x, hx, rfl⟩ := List.mem_map.mp hc
      by_cases hcc : x.1 = cv.1
      · rw [if_pos hcc]
        simpa using h x hx
      · rw [if_neg hcc]
        exact h x hx

theorem completeStep_len (d3 : List (String × List Val)) (n : ℕ)
    (h3 : ∀ c ∈ d3, c.2.length = n) :
    ∀ c ∈ completeStep n d3, c.2.length = n := by
  intro c hc
  unfold completeStep at hc
  rcases List.mem_append.mp hc with hl | hr
  · exact h3 c hl
  · obtain ⟨b, hb, rfl⟩ := List.mem_map.mp hr
    simp

theorem selectStep_len (d4 : List (String × List Val)) (n : ℕ)
    (h4 : ∀ c ∈ d4, c.2.length = n) :
    ∀ c ∈ selectStep d4, c.2.length = n := by
  intro c hc
  unfold selectStep at hc
  obtain ⟨b, hb, hbc⟩ := List.mem_filterMap.mp hc
  cases hlb : lookupCol b d4 with
  | none =>
      rw [hlb] at hbc
      cases hbc
  | some col =>
      rw [hlb] at hbc
      simp only [Option.map_some', Option.some.injEq] at hbc
      rw [← hbc]
      exact h4 (b, col) (lookupCol_mem b d4 col hlb)

theorem astypeCol_fst (c : String × List Val) (y : String × List FVal)
    (h : astypeCol c = Except.ok y) : y.1 = c.1 ∧ y.2.length = c.2.length := by
  unfold astypeCol at h
  cases hm : mapE astypeF c.2 with
  | error e =>
      rw [hm] at h
      cases h
  | ok col =>
      rw [hm] at h
      cases h
      exact ⟨rfl, mapE_length astypeF c.2 col hm⟩

theorem mapE_astype_names (d5 : List (String × List Val)) (d6 : NDF)
    (h : mapE astypeCol d5 = Except.ok d6) :
    d6.map Prod.fst = d5.map Prod.fst := by
  induction d5 generalizing d6 with
  | nil =>
      cases h
      rfl
  | cons c cs ih =>
      obtain ⟨y, ys, hy, hys, rfl⟩ := mapE_ok_cons_inv _ c cs d6 h
      simp [(astypeCol_fst c y hy).1, ih ys hys]

theorem rowOf_restrict (X : NDF) (i : ℕ) :
    rowOf (restrictN X i) 0 = rowOf X i := by
  unfold rowOf restrictN
  rw [List.map_map]
  rfl

theorem singleDF_recordOf (df : DF) (i : ℕ) :
    singleDF (recordOf df i) = rowDF df i := by
  unfold singleDF recordOf rowDF restrictV
  rw [List.map_map]
  rfl

/-- When the batch `transform` succeeds on a well-formed table, it also
succeeds on any single row of the table, producing exactly that row of
the batch output. -/
theorem transform_restrict (fills : List (String × ℚ)) (df : DF)
    (hWF : df.WF) (i : ℕ) (hi : i < df.n) (X : NDF)
    (hok : transform fills df = Except.ok X) :
    transform fills (rowDF df i) = Except.ok (restrictN X i) := by
  unfold transform at hok
  cases h2 : mapE genderColStep (dropStep df) with
  | error e =>
      rw [h2] at hok
      exact Except.noConfusion hok
  | ok d2 =>
      rw [h2] at hok
      have hok2 : (mapE astypeCol (selectStep (completeStep df.n
          (fillStep fills d2))) >>= fun d6 => pure (createFeatures d6)) =
          Except.ok X := hok
      cases h6 : mapE astypeCol (selectStep (completeStep df.n
          (fillStep fills d2))) with
      | error e =>
          rw [h6] at hok2
          exact Except.noConfusion hok2
      | ok d6 =>
          rw [h6] at hok2
          have hX : createFeatures d6 = X := by
            have hok3 : Except.ok (createFeatures d6) = Except.ok X := hok2
            cases hok3
            rfl
          -- cell-count invariants
          have hd1eq : ∀ c ∈ dropStep df, c.2.length = df.n :=
            fun c hc => hWF c (List.mem_of_mem_filter hc)
          have hd2eq : ∀ c ∈ d2, c.2.length = df.n := by
            intro c hc
            obtain ⟨x, hx, hfx⟩ := mapE_mem_inv _ _ _ h2 c hc
            rw [genderColStep_len x c hfx]
            exact hd1eq x hx
          have hd3eq : ∀ c ∈ fillStep fills d2, c.2.length = df.n :=
            fillStep_len_eq fills d2 df.n hd2eq
          have hd4eq : ∀ c ∈ completeStep df.n (fillStep fills d2),
              c.2.length = df.n :=
            completeStep_len (fillStep fills d2) df.n hd3eq
          have hd5eq : ∀ c ∈ selectStep (completeStep df.n
              (fillStep fills d2)), c.2.length = df.n :=
            selectStep_len _ df.n hd4eq
          have hd6eq : ∀ c ∈ d6, c.2.length = df.n := by
            intro c hc
            obtain ⟨x, hx, hfx⟩ := mapE_mem_inv _ _ _ h6 c hc
            rw [(astypeCol_fst x c hfx).2]
            exact hd5eq x hx
          -- column names after the projection
          have hsome : ∀ b ∈ BASE_FEATURES, (lookupCol b (completeStep df.n
              (fillStep fills d2))).isSome := by
            intro b hb
            show (lookupCol b ((fillStep fills d2) ++
                (BASE_FEATURES.filter
                  (fun x => (lookupCol x (fillStep fills d2)).isNone)).map
                  (fun x => (x, List.replicate df.n (Val.vnum 0))))).isSome
            rw [lookup_d4 (fillStep fills d2) df.n b hb]
            rfl
          have hd5names : (selectStep (completeStep df.n
              (fillStep fills d2))).map Prod.fst = BASE_FEATURES := by
            rw [show selectStep (completeStep df.n (fillStep fills d2)) =
                BASE_FEATURES.map (fun b => (b, (lookupCol b (completeStep df.n
                  (fillStep fills d2))).getD []))
              from filterMap_lookup BASE_FEATURES _ [] hsome,
              List.map_map]
            exact List.map_id BASE_FEATURES
          have hd6names : d6.map Prod.fst = BASE_FEATURES := by
            rw [mapE_astype_names _ _ h6]
            exact hd5names
          -- the commuted pipeline
          have e2 : mapE genderColStep (restrictV (dropStep df) i) =
              Except.ok (restrictV d2 i) :=
            mapE_gender_restrict (dropStep df) i
              (fun c hc => by rw [hd1eq c hc]; exact hi) d2 h2
          have e3 : fillStep fills (restrictV d2 i) =
              restrictV (fillStep fills d2) i :=
            fillStep_restrict fills d2 i
              (fun c hc => by rw [hd2eq c hc]; exact hi)
          have e4 : completeStep 1 (restrictV (fillStep fills d2) i) =
              restrictV (completeStep df.n (fillStep fills d2)) i :=
            completeStep_restrict (fillStep fills d2) df.n i hi
          have e5 : selectStep (restrictV (completeStep df.n
              (fillStep fills d2)) i) =
              restrictV (selectStep (completeStep df.n (fillStep fills d2))) i :=
            selectStep_restrict _ i
          have e6 : mapE astypeCol (restrictV (selectStep (completeStep df.n
              (fillStep fills d2))) i) = Except.ok (restrictN d6 i) :=
            mapE_astype_restrict _ i
              (fun c hc => by rw [hd5eq c hc]; exact hi) d6 h6
          have e7 : createFeatures (restrictN d6 i) =
              restrictN (createFeatures d6) i :=
            createFeatures_restrict d6 df.n i hd6names hd6eq hi
          unfold transform
          rw [dropStep_rowDF df i, e2, bindE_ok]
          show (mapE astypeCol (selectStep (completeStep 1
              (fillStep fills (restrictV d2 i)))) >>= fun d6 =>
              pure (createFeatures d6)) = Except.ok (restrictN X i)
          rw [e3, e4, e5, e6, bindE_ok]
          show Except.ok (createFeatures (restrictN d6 i)) =
            Except.ok (restrictN X i)
          rw [e7, hX]

theorem round4_two_fifths : round4 (2/5) = 2/5 := by
  have hf : ⌊(2/5 : ℚ) * 10000⌋ = 4000 := by norm_num
  have h : halfEven ((2/5 : ℚ) * 10000) = 4000 := by
    unfold halfEven
    rw [hf]
    norm_num
  unfold round4
  rw [h]
  norm_num

/-- **C2** (counterexample). Row results are not independent: on the
two-row table whose Gender column holds an unknown string in row 0 and
"Male" in row 1, the batch path raises (the whole call fails, so row 1
gets no result), while `predict_single` on row 1 alone succeeds with
decision 1 and rounded probability 2/5. One row's bad value changes
another row's outcome. -/
theorem batch_single_coupling_cx :
    singleOut DEFAULT_FILL_VALUES demoModel DEFAULT_THRESHOLD
        (recordOf coupledDF 1) = some (1, 2/5) ∧
    batchRowOut DEFAULT_FILL_VALUES demoModel DEFAULT_THRESHOLD
        coupledDF 1 = none ∧
    batchRowOut DEFAULT_FILL_VALUES demoModel DEFAULT_THRESHOLD
        coupledDF 1 ≠
      singleOut DEFAULT_FILL_VALUES demoModel DEFAULT_THRESHOLD
        (recordOf coupledDF 1) := by
  have hpre : preprocessSingle DEFAULT_FILL_VALUES (recordOf coupledDF 1) =
      Except.ok ((preprocessSingle DEFAULT_FILL_VALUES
        (recordOf coupledDF 1)).toOption.getD []) := rfl
  have hps := predictSingle_eq_ok DEFAULT_FILL_VALUES demoModel
    DEFAULT_THRESHOLD (recordOf coupledDF 1) _ hpre
  have hA : singleOut DEFAULT_FILL_VALUES demoModel DEFAULT_THRESHOLD
      (recordOf coupledDF 1) = some (1, 2/5) := by
    unfold singleOut
    rw [hps]
    show some (((if (2/5 : ℚ) ≤ 2/5 then 1 else 0) : ℕ), round4 (2/5)) =
      some (1, 2/5)
    rw [if_pos (le_refl ((2 : ℚ)/5)), round4_two_fifths]
  have hB : batchRowOut DEFAULT_FILL_VALUES demoModel DEFAULT_THRESHOLD
      coupledDF 1 = none := rfl
  refine ⟨hA, hB, ?_⟩
  rw [hA, hB]
  simp

/-- **C2** (amended). Whenever the batch call succeeds on a well-formed
table, each row's batch result does agree with `predict_single` applied
to that row's record alone: same binary decision and same 4-decimal
rounded probability. Row independence fails only through the shared
failure channel, where one row's bad value aborts the whole batch. -/
theorem batch_rowwise_refinement (fills : List (String × ℚ)) (model : Model)
    (th : ℚ) (df : DF) (hWF : df.WF) (i : ℕ) (hi : i < df.n)
    (rs : List BatchRow) (hok : predict fills model th df = Except.ok rs) :
    ∃ r, predictSingle fills model th (recordOf df i) = Except.ok r ∧
      r.prediction = (rs.getD i ⟨Val.vna, 0, 0⟩).prediction ∧
      r.probability = (rs.getD i ⟨Val.vna, 0, 0⟩).probability := by
  cases htr : transform fills df with
  | error e =>
      have hpe : predict fills model th df = Except.error e := by
        unfold predict
        rw [htr]
        rfl
      exact Except.noConfusion (hpe.symm.trans hok)
  | ok X =>
      have hps : predict fills model th df = Except.ok
          ((List.range df.n).map (fun j =>
            ({ id := (match lookupCol "id" df.cols with
                      | some col => col
                      | none => (List.range df.n).map
                          (fun k : ℕ => Val.vnum k)).getD j Val.vna,
               prediction := if th ≤ model.fn (rowOf X j) then 1 else 0,
               probability := round4 (model.fn (rowOf X j)) } : BatchRow))) := by
        unfold predict
        rw [htr]
        rfl
      have hrs := hps.symm.trans hok
      simp only [Except.ok.injEq] at hrs
      have hpre : preprocessSingle fills (recordOf df i) =
          Except.ok (restrictN X i) := by
        show transform fills (singleDF (recordOf df i)) =
          Except.ok (restrictN X i)
        rw [singleDF_recordOf]
        exact transform_restrict fills df hWF i hi X htr
      have hget : rs.getD i ⟨Val.vna, 0, 0⟩ =
          ({ id := (match lookupCol "id" df.cols with
                    | some col => col
                    | none => (List.range df.n).map
                        (fun k : ℕ => Val.vnum k)).getD i Val.vna,
             prediction := if th ≤ model.fn (rowOf X i) then 1 else 0,
             probability := round4 (model.fn (rowOf X i)) } : BatchRow) := by
        rw [← hrs, getD_map_lt _ _ i (by simpa using hi) 0,
            getD_range_lt df.n i hi]
      refine ⟨_, predictSingle_eq_ok fills model th (recordOf df i)
        (restrictN X i) hpre, ?_, ?_⟩
      · rw [hget]
        show (if th ≤ model.fn (rowOf (restrictN X i) 0) then 1 else 0) =
          (if th ≤ model.fn (rowOf X i) then 1 else 0)
        rw [rowOf_restrict]
      · rw [hget]
        show round4 (model.fn (rowOf (restrictN X i) 0)) =
          round4 (model.fn (rowOf X i))
        rw [rowOf_restrict]

theorem batch_rowwise_refinement_witness :
    ∃ rs, predict DEFAULT_FILL_VALUES demoModel DEFAULT_THRESHOLD
        demoNoIdDF = Except.ok rs ∧
      ∃ r, predictSingle DEFAULT_FILL_VALUES demoModel DEFAULT_THRESHOLD
          (recordOf demoNoIdDF 1) = Except.ok r ∧
        r.prediction = (rs.getD 1 ⟨Val.vna, 0, 0⟩).prediction ∧
        r.probability = (rs.getD 1 ⟨Val.vna, 0, 0⟩).probability := by
  have hok : predict DEFAULT_FILL_VALUES demoModel DEFAULT_THRESHOLD
      demoNoIdDF = Except.ok ((predict DEFAULT_FILL_VALUES demoModel
        DEFAULT_THRESHOLD demoNoIdDF).toOption.getD []) := rfl
  exact ⟨_, hok, batch_rowwise_refinement DEFAULT_FILL_VALUES demoModel
    DEFAULT_THRESHOLD demoNoIdDF
    (show ∀ c ∈ demoNoIdDF.cols, (c.2).length = demoNoIdDF.n by decide)
    1 (by decide) _ hok⟩

end HealthPred
